import Mathlib

/-! Replica-set election core (`src/mongo/db/repl/consensus.cpp`).

A shallow embedding of the election protocol of `consensus.cpp` and the
properties of it that are stated in the specification.

Conventions of the embedding.

* `GTID` (the log position) and `GTID::cmp` are not part of the sources at hand:
  every definition is parametric in a type `G` of positions and in the
  comparator `cmp : G → G → Int` (negative, zero, positive).
* The replica set object `theReplSet` / `rs` is a record `ReplSet G` holding a
  snapshot of what the code reads from it; the results of member functions whose
  bodies are not at hand (`findById`, `getMostElectable`, `isElectable`,
  `box.getPrimary`, `acceptPossiblePrimary`, ...) are fields.
* C++ `int` and `time_t` arithmetic is carried out in `Int` (signed overflow is
  undefined behaviour in C++ and is outside the model); `uint64_t` and
  `unsigned` arithmetic is reduced modulo `2^64` and `2^32`.  The configured
  `votes` of a member are unsigned (`yea` returns them as `unsigned`) and are a
  `Nat`; where the code stores them in an `int` or adds them to one (`vTot`,
  `vUp`, `vote`, `tally`), the result is brought back into the range of `int` by
  `toInt` (two's complement).  Sums and products of two `int`s (`tally += v`,
  `tally * 2`, `vUp * 2`) stay in `Int`.  `priority`, a `double` of which only
  `>` is used, is a rational.
* BSON replies are modelled after decoding: a record holds the fields the code
  reads, an optional field is an `Option`.
* Calls that act on the outside world (fan-out commands, the epoch store, the
  role change, sleeping) are recorded in a trace of `Event`s.
* Log statements are left out.
-/

namespace mongo

/-! ## Data model -/

/-- The modulus of `uint64_t` arithmetic. -/
def UINT64_MOD : Nat := 18446744073709551616

/-- The modulus of `unsigned` / `uint32_t` arithmetic. -/
def UINT32_MOD : Nat := 4294967296

/-- Conversion of an `int` to `unsigned` / `uint32_t`, as in
`uint32_t id = cmdObj["id"].Int()`. -/
def toUnsigned (x : Int) : Nat := (x % (UINT32_MOD : Int)).toNat

/-- Conversion to `int` of an `unsigned` value, or of the `unsigned` result of
adding an `unsigned` to an `int`, as in `int vTot = rs._self->config().votes`
and `vTot += m->config().votes`: the value modulo `2^32` in the range
`[-2^31, 2^31)`. -/
def toInt (x : Int) : Int := (x + 2147483648) % 4294967296 - 2147483648

/-- The fields of `Member::config()` that `consensus.cpp` reads. -/
structure MemberCfg where
  votes : Nat
  priority : Rat
  arbiterOnly : Bool
  slaveDelay : Int
  deriving DecidableEq

/-- The fields of `Member::hbinfo()` that `consensus.cpp` reads. -/
structure HeartbeatInfo (G : Type) where
  up : Bool
  maybeUp : Bool
  gtid : G
  highestKnownPrimaryInSet : Nat
  deriving DecidableEq

/-- A configured member: `id()`, `fullName()`, `config()`, `hbinfo()`. -/
structure Member (G : Type) where
  id : Nat
  fullName : String
  config : MemberCfg
  hbinfo : HeartbeatInfo G
  deriving DecidableEq

/-- A snapshot of the replica set object (`theReplSet`, `rs`) together with its
`gtidManager`.  `members` is the list walked by `head()` / `next()`: the other
members, `self` is `_self`. -/
structure ReplSet (G : Type) where
  name : String
  version : Int
  self : Member G
  members : List (Member G)
  lockedByMe : Bool
  getPrimary : Option (Member G)
  isPrimary : Bool
  getMostElectable : Option (Member G)
  findById : Nat → Option (Member G)
  isElectable : Nat → Bool
  lastOtherGTID : G
  getHighestKnownPrimaryAcrossSet : Nat
  getLiveState : G
  getHighestKnownPrimary : Nat
  acceptPossiblePrimary : Nat → G → Bool

/-- The exceptions `consensus.cpp` raises itself. -/
inductive Exn where
  | retryAfterSleep
  | assertion (what : String)
  deriving DecidableEq, Repr

/-- The request of the freshness phase (`replSetFresh`). -/
structure FreshCmd (G : Type) where
  set : String
  GTID : G
  who : String
  cfgver : Int
  id : Int
  deriving DecidableEq

/-- The decoded reply to `replSetFresh`: `fresher` and `veto` are the
`trueValue()` of the fields, `errmsg` and `hkp` may be absent. -/
structure FreshResult (G : Type) where
  GTID : G
  fresher : Bool
  veto : Bool
  errmsg : Option String
  hkp : Option Nat
  deriving DecidableEq

/-- The request of the election phase (`replSetElect`); `primaryToUse` is
absent in requests of the older protocol. -/
structure ElectCmd (G : Type) where
  set : String
  who : String
  whoid : Int
  cfgver : Int
  round : Nat
  primaryToUse : Option Nat
  gtid : G
  deriving DecidableEq

/-- The decoded reply to `replSetElect`. -/
structure ElectResult where
  vote : Int
  round : Nat
  deriving DecidableEq, Repr

/-- A `Target` after `multiCommand` has filled it in. -/
structure Target (R : Type) where
  toHost : String
  ok : Bool
  result : R
  deriving DecidableEq

/-- The observable actions of the election code. -/
inductive Event (G : Type) where
  | multiCommandFresh (hosts : List String) (cmd : FreshCmd G)
  | sethbmsg (msg : String)
  | sleepmillis (ms : Nat)
  | multiCommandElect (hosts : List String) (cmd : ElectCmd G)
  | acceptPossiblePrimary (primaryToUse : Nat) (gtid : G)
  | handleHighestKnownPrimaryOfMember (primaryToUse : Nat)
  | assumePrimary (primaryToUse : Nat)
  deriving DecidableEq

/-- The mutable members of `Consensus`. -/
structure Consensus where
  sleptLast : Bool
  steppedDown : Int
  deriving DecidableEq, Repr

/-! ## The vote evaluator -/

/-- The function `shouldVeto(id, config, errmsg)` (lines 25-64): the verdict and
the value of `errmsg` on return. -/
def shouldVeto {G : Type} (theReplSet : ReplSet G) (id : Nat) (config : Int)
    (errmsg : String) : Bool × String :=
  let primary := theReplSet.getPrimary
  let highestPriority := theReplSet.getMostElectable
  match theReplSet.findById id with
  | none => (true, "replSet couldn't find member with id " ++ toString id)
  | some hopeful =>
    if theReplSet.version > config then
      (true, "replSet member " ++ toString id ++ " is not yet aware its cfg version "
        ++ toString config ++ " is stale")
    else if theReplSet.isPrimary then
      (true, "I am already primary, " ++ hopeful.fullName
        ++ " can try again once I've stepped down")
    else
      match primary with
      | some p =>
        (true, hopeful.fullName ++ " is trying to elect itself but " ++ p.fullName
          ++ " is already primary and more up-to-date")
      | none =>
        if (match highestPriority with
            | some hp => decide (hp.config.priority > hopeful.config.priority)
            | none => false) then
          (true, hopeful.fullName ++ " has lower priority than "
            ++ (match highestPriority with
                | some hp => hp.fullName
                | none => ""))
        else if !theReplSet.isElectable id then
          (true, "I don't think " ++ hopeful.fullName ++ " is electable")
        else
          (false, errmsg)

/-- The outcome of a command handler: the handler returned `false` with an error
message, returned `true` with the reply it built, or dereferenced a null
`Member*`. -/
inductive CmdOutcome (R : Type) where
  | failed (errmsg : String)
  | done (result : R)
  | nullDereference
  deriving DecidableEq

/-- The handler `CmdReplSetFresh::run` (lines 82-127); `check` stands for the call
`check(errmsg, result)`: `none` when that test passes, the message it leaves
otherwise. -/
def CmdReplSetFresh.run {G : Type} (cmp : G → G → Int) (theReplSet : ReplSet G)
    (check : Option String) (cmdObj : FreshCmd G) (errmsg : String) :
    CmdOutcome (FreshResult G) :=
  match check with
  | some e => .failed e
  | none =>
    if cmdObj.set ≠ theReplSet.name then .failed "wrong repl set name"
    else
      let cfgver := cmdObj.cfgver
      let id := toUnsigned cmdObj.id
      let remoteGTID := cmdObj.GTID
      let ourGTID := theReplSet.getLiveState
      let weAreFresher :=
        decide (cmp remoteGTID ourGTID < 0)
          || decide (cmp remoteGTID theReplSet.lastOtherGTID < 0)
      let sv := shouldVeto theReplSet id cfgver errmsg
      let highestKnownPrimaryToUse :=
        max theReplSet.getHighestKnownPrimary theReplSet.getHighestKnownPrimaryAcrossSet
      if !sv.1 && !theReplSet.isElectable id then
        match theReplSet.findById id with
        | none => .nullDereference
        | some m =>
          .done
            { GTID := ourGTID
              fresher := weAreFresher
              veto := true
              errmsg := some ("I don't think " ++ m.fullName ++ " is electable")
              hkp := some highestKnownPrimaryToUse }
      else
        .done
          { GTID := ourGTID
            fresher := weAreFresher
            veto := sv.1
            errmsg := if sv.1 then some sv.2 else none
            hkp := some highestKnownPrimaryToUse }

/-! ## Vote counting and the relinquish monitor -/

/-- The function `Consensus::totalVotes()` (lines 149-157).  `vTot` is an `int`
and the votes are `unsigned`: the initialisation and every `+=` convert the
`unsigned` result back to `int`. -/
def Consensus.totalVotes {G : Type} (rs : ReplSet G) : Int :=
  rs.members.foldl (fun vTot m => toInt (vTot + (m.config.votes : Int)))
    (toInt (rs.self.config.votes : Int))

/-- The function `Consensus::aMajoritySeemsToBeUp()` (lines 159-164).  `vUp` is
an `int`; both arms of the conditional have the type `unsigned`, and the `+=`
converts the `unsigned` result back to `int`. -/
def Consensus.aMajoritySeemsToBeUp {G : Type} (rs : ReplSet G) : Bool :=
  let vUp := rs.members.foldl
    (fun vUp m => toInt (vUp + (if m.hbinfo.up then (m.config.votes : Int) else 0)))
    (toInt (rs.self.config.votes : Int))
  decide (vUp * 2 > Consensus.totalVotes rs)

/-- The loop of `Consensus::shouldRelinquish()` (lines 170-187): `none` when the
loop returns `true` from inside, `some vUp` when it runs to the end.  `vUp` is
an `int` to which the `unsigned` votes are added. -/
def Consensus.shouldRelinquishLoop {G : Type} (cmp : G → G → Int) (ourLiveState : G)
    (ourHighestKnownPrimary : Nat) : List (Member G) → Int → Option Int
  | [], vUp => some vUp
  | m :: rest, vUp =>
    if m.hbinfo.up then
      if cmp ourLiveState m.hbinfo.gtid < 0 then none
      else if ourHighestKnownPrimary < m.hbinfo.highestKnownPrimaryInSet then none
      else Consensus.shouldRelinquishLoop cmp ourLiveState ourHighestKnownPrimary rest
        (toInt (vUp + (m.config.votes : Int)))
    else Consensus.shouldRelinquishLoop cmp ourLiveState ourHighestKnownPrimary rest vUp

/-- The function `Consensus::shouldRelinquish()` (lines 166-197). -/
def Consensus.shouldRelinquish {G : Type} (cmp : G → G → Int) (rs : ReplSet G) : Bool :=
  let ourLiveState := rs.getLiveState
  let ourHighestKnownPrimary := rs.getHighestKnownPrimary
  match Consensus.shouldRelinquishLoop cmp ourLiveState ourHighestKnownPrimary rs.members
      (toInt (rs.self.config.votes : Int)) with
  | none => true
  | some vUp => if !(decide (vUp * 2 > Consensus.totalVotes rs)) then true else false

/-- The function `Consensus::yea(memberId)` (lines 199-201). -/
def Consensus.yea {G : Type} (rs : ReplSet G) (_memberId : Nat) : Nat :=
  rs.self.config.votes

/-! ## The responder of the election phase -/

/-- What `Consensus::electCmdReceived` does: the reply it appends (`none` when
it dereferences a null `hopeful`) and the calls it makes on the epoch store.  -/
structure ElectCmdOutcome (G : Type) where
  reply : Option ElectResult
  trace : List (Event G)

/-- The function `Consensus::electCmdReceived(cmd, b)` (lines 204-251).  The
local `voteYes` is declared without an initial value and is assigned only on
the branch of the older protocol; on the `primaryToUse` branch the result of
`acceptPossiblePrimary` is dropped and `voteYes` is read as it is, so its
value there is the parameter `voteYesUninit`.  Both branches that follow
evaluate `hopeful->fullName()`; the `dassert` of debug builds is left out.
`vote` is an `int`, and `vote = yea(whoid)` converts the `unsigned` votes. -/
def Consensus.electCmdReceived {G : Type} (rs : ReplSet G) (voteYesUninit : Bool)
    (cmd : ElectCmd G) : ElectCmdOutcome G :=
  let set := cmd.set
  let whoid := toUnsigned cmd.whoid
  let cfgver := cmd.cfgver
  let round := cmd.round
  let myver := rs.version
  let hopeful := rs.findById whoid
  if set ≠ rs.name then ⟨some ⟨0, round⟩, []⟩
  else if myver < cfgver then ⟨some ⟨0, round⟩, []⟩
  else if (shouldVeto rs whoid cfgver "").1 then ⟨some ⟨-10000, round⟩, []⟩
  else
    let branch : Bool × List (Event G) :=
      match cmd.primaryToUse with
      | some p => (voteYesUninit, [Event.acceptPossiblePrimary p cmd.gtid])
      | none => (true, [])
    match hopeful with
    | none => ⟨none, branch.2⟩
    | some _ =>
      if branch.1 then ⟨some ⟨toInt (Consensus.yea rs whoid : Int), round⟩, branch.2⟩
      else ⟨some ⟨0, round⟩, branch.2⟩

/-! ## Targets and fan-out -/

/-- The function `ReplSetImpl::_getTargets(L, configVersion)` (lines 253-258): the
hosts of the targets `Target(m->fullName())` pushed to `L`, and the config
version. -/
def ReplSetImpl._getTargets {G : Type} (rs : ReplSet G) : List String × Int :=
  ((rs.members.filter (fun m => m.hbinfo.maybeUp)).map (fun m => m.fullName), rs.version)

/-- The function `ReplSetImpl::getTargets(L, configVersion)` (lines 262-269);
taking the lock is not modelled. -/
def ReplSetImpl.getTargets {G : Type} (rs : ReplSet G) : List String × Int :=
  if rs.lockedByMe then ReplSetImpl._getTargets rs else ReplSetImpl._getTargets rs

/-- The free function `mongo::multiCommand(cmd, L)`, which fills in `ok` and
`result` of every target: `net` gives, for a host, whether the command
succeeded there and the decoded reply. -/
def multiCommand {R : Type} (net : String → Bool × R) (L : List String) : List (Target R) :=
  L.map (fun h => { toHost := h, ok := (net h).1, result := (net h).2 })

/-- The function `Consensus::multiCommand(cmd, L)` (lines 345-348). -/
def Consensus.multiCommand {G R : Type} (rs : ReplSet G) (net : String → Bool × R)
    (L : List String) : Except Exn (List (Target R)) :=
  if rs.lockedByMe then .error (Exn.assertion "!rs.lockedByMe()")
  else .ok (mongo.multiCommand net L)

/-! ## The freshness phase -/

/-- The reference parameters of `Consensus::weAreFreshest`. -/
structure FreshOut where
  allUp : Bool
  nTies : Int
  highestKnownPrimary : Nat
  deriving DecidableEq, Repr

/-- The loop of `Consensus::weAreFreshest` over the targets (lines 300-336),
followed by the closing `verify` (line 339); `liveNow` is the value of
`getLiveState()` read there.  The result is the returned `bool` with the
reference parameters, or the failed `verify`. -/
def Consensus.weAreFreshestLoop {G : Type} (cmp : G → G → Int) (ourGTID liveNow : G) :
    List (Target (FreshResult G)) → FreshOut → Except Exn (Bool × FreshOut)
  | [], st =>
    if cmp ourGTID liveNow ≤ 0 then .ok (true, st)
    else .error (Exn.assertion "GTID::cmp(ourGTID, rs.gtidManager->getLiveState()) <= 0")
  | i :: rest, st =>
    if i.ok then
      if i.result.fresher then .ok (false, st)
      else
        let remoteGTID := i.result.GTID
        let st1 : FreshOut :=
          if cmp remoteGTID ourGTID = 0 then { st with nTies := st.nTies + 1 } else st
        if ¬ (cmp remoteGTID ourGTID ≤ 0) then
          .error (Exn.assertion "GTID::cmp(remoteGTID, ourGTID) <= 0")
        else if i.result.veto then .ok (false, st1)
        else
          let st2 : FreshOut :=
            match i.result.hkp with
            | some h =>
              let memHighestKnownPrimary := h % UINT64_MOD
              if memHighestKnownPrimary > st1.highestKnownPrimary then
                { st1 with highestKnownPrimary := memHighestKnownPrimary }
              else st1
            | none => st1
          Consensus.weAreFreshestLoop cmp ourGTID liveNow rest st2
    else
      Consensus.weAreFreshestLoop cmp ourGTID liveNow rest { st with allUp := false }

/-- A computation with its trace of actions. -/
structure Run (G α : Type) where
  trace : List (Event G)
  result : Except Exn α

/-- The function `Consensus::weAreFreshest(allUp, nTies, highestKnownPrimary)`
(lines 275-341): `net` answers the fan-out, `liveNow` is the live state read by
the closing `verify`. -/
def Consensus.weAreFreshest {G : Type} (cmp : G → G → Int) (rs : ReplSet G)
    (net : String → Bool × FreshResult G) (liveNow : G) : Run G (Bool × FreshOut) :=
  let ourGTID := rs.getLiveState
  let highestKnownPrimary := rs.getHighestKnownPrimary
  let cmd : FreshCmd G :=
    { set := rs.name, GTID := ourGTID, who := rs.self.fullName, cfgver := rs.version,
      id := (rs.self.id : Int) }
  let L := (ReplSetImpl.getTargets rs).1
  match Consensus.multiCommand rs net L with
  | .error e => ⟨[], .error e⟩
  | .ok L =>
    ⟨[Event.multiCommandFresh (L.map (fun t => t.toHost)) cmd],
      Consensus.weAreFreshestLoop cmp ourGTID liveNow L
        { allUp := true, nTies := 0, highestKnownPrimary := highestKnownPrimary }⟩

/-! ## The election phase and the coordinator -/

/-- What `_electSelf` reads from outside the replica set snapshot it starts
with: the clock at its four readings, the process start time `started`,
`rand()`, the answers to the two fan-outs, the live state at the end of the
freshness phase, the `OID` of the round, the replica set as the election phase
finds it, and the config version read after the tally. -/
structure ElectEnv (G : Type) where
  timeAtEntry : Int
  timeAtGrace : Int
  timeAtStart : Int
  timeAfterTally : Int
  started : Int
  rand : Nat
  freshNet : String → Bool × FreshResult G
  liveAfterFresh : G
  round : Nat
  rsElect : ReplSet G
  electNet : String → Bool × ElectResult
  versionAfterTally : Int

/-- What a call of `_electSelf` or `electSelf` leaves behind: how it ended, the
value of `sleptLast`, and its actions. -/
structure Outcome (G : Type) where
  result : Except Exn Unit
  sleptLast : Bool
  trace : List (Event G)

/-- The tally loop of `_electSelf` (lines 417-423): `tally += v` for every target
that is `ok`. -/
def Consensus.tallyVotes (tally : Int) (L : List (Target ElectResult)) : Int :=
  L.foldl (fun tally i => if i.ok then tally + i.result.vote else tally) tally

/-- The decision of `_electSelf` after the tally (lines 424-445, the `if` chain
that ends in `assumePrimary`): the actions it performs. -/
def Consensus.electDecision {G : Type} (rs : ReplSet G) (tally : Int) (start now : Int)
    (configVersion versionNow : Int) (primaryToUse : Nat) : List (Event G) :=
  if tally * 2 ≤ Consensus.totalVotes rs then []
  else if now - start > 30 then []
  else if configVersion ≠ versionNow then []
  else if !rs.acceptPossiblePrimary primaryToUse rs.getLiveState then
    [Event.acceptPossiblePrimary primaryToUse rs.getLiveState]
  else
    [Event.acceptPossiblePrimary primaryToUse rs.getLiveState,
     Event.handleHighestKnownPrimaryOfMember primaryToUse,
     Event.assumePrimary primaryToUse]

/-- The election phase of `_electSelf` (lines 393-450), from
`time_t start = time(0)` on; `me` is the reference bound to `*rs._self` before
the tie decision.  `int tally = yea(meid)` converts the `unsigned` votes. -/
def Consensus.electPhase {G : Type} (me : Member G) (env : ElectEnv G)
    (highestKnownPrimary : Nat) : Run G Unit :=
  let rs := env.rsElect
  let start := env.timeAtStart
  let meid := me.id
  let tally : Int := toInt (Consensus.yea rs meid : Int)
  let primaryToUse := (highestKnownPrimary + 1) % UINT64_MOD
  let electCmd : ElectCmd G :=
    { set := rs.name, who := me.fullName, whoid := (me.id : Int), cfgver := rs.version,
      round := env.round, primaryToUse := some primaryToUse, gtid := rs.getLiveState }
  let targets := ReplSetImpl.getTargets rs
  let configVersion := targets.2
  match Consensus.multiCommand rs env.electNet targets.1 with
  | .error e => ⟨[], .error e⟩
  | .ok L =>
    let tally := Consensus.tallyVotes tally L
    ⟨Event.multiCommandElect (L.map (fun t => t.toHost)) electCmd ::
        Consensus.electDecision rs tally start env.timeAfterTally configVersion
          env.versionAfterTally primaryToUse,
      .ok ()⟩

/-- The sleep of a tying member (line 384): `((unsigned) rand()) % 1000 + 50`. -/
def Consensus.tieSleepMs (rand : Nat) : Nat :=
  ((rand % UINT32_MOD) % 1000 + 50) % UINT32_MOD

/-- The function `Consensus::_electSelf()` (lines 350-451). -/
def Consensus._electSelf {G : Type} (cmp : G → G → Int) (c : Consensus) (rs : ReplSet G)
    (env : ElectEnv G) : Outcome G :=
  if env.timeAtEntry < c.steppedDown then ⟨.ok (), c.sleptLast, []⟩
  else
    let fresh := Consensus.weAreFreshest cmp rs env.freshNet env.liveAfterFresh
    match fresh.result with
    | .error e => ⟨.error e, c.sleptLast, fresh.trace⟩
    | .ok (false, _) => ⟨.ok (), c.sleptLast, fresh.trace⟩
    | .ok (true, out) =>
      let trace1 := fresh.trace ++ [Event.sethbmsg ""]
      if !out.allUp && decide (env.timeAtGrace - env.started < 60 * 5) then
        ⟨.ok (), c.sleptLast,
          trace1 ++ [Event.sethbmsg
            "not electing self, not all members up and we have been up less than 5 minutes"]⟩
      else
        let me := rs.self
        if out.nTies ≠ 0 ∧ ¬ (me.id = 0 ∨ c.sleptLast = true) then
          if rs.lockedByMe then ⟨.error (Exn.assertion "!rs.lockedByMe()"), c.sleptLast, trace1⟩
          else
            let ms := Consensus.tieSleepMs env.rand
            ⟨.error Exn.retryAfterSleep, true, trace1 ++ [Event.sleepmillis ms]⟩
        else
          let elect := Consensus.electPhase me env out.highestKnownPrimary
          ⟨elect.result, false, trace1 ++ elect.trace⟩

/-- The function `Consensus::electSelf()` (lines 453-469). -/
def Consensus.electSelf {G : Type} (cmp : G → G → Int) (c : Consensus) (rs : ReplSet G)
    (env : ElectEnv G) : Outcome G :=
  if rs.lockedByMe then ⟨.error (Exn.assertion "!rs.lockedByMe()"), c.sleptLast, []⟩
  else if rs.self.config.arbiterOnly then
    ⟨.error (Exn.assertion "!rs.myConfig().arbiterOnly"), c.sleptLast, []⟩
  else if rs.self.config.slaveDelay ≠ 0 then
    ⟨.error (Exn.assertion "rs.myConfig().slaveDelay == 0"), c.sleptLast, []⟩
  else
    let r := Consensus._electSelf cmp c rs env
    match r.result with
    | .error Exn.retryAfterSleep => r
    | .error _ => { r with result := .ok () }
    | .ok _ => r

/-- Successive calls of `_electSelf` on one `Consensus` object: each attempt has
its own `steppedDown`, replica set snapshot and environment, and starts with
the `sleptLast` the attempt before it left (`_electSelf` is the only writer of
`sleptLast` in `consensus.cpp`).  The result is the list of the outcomes. -/
def Consensus.attempts {G : Type} (cmp : G → G → Int) (sleptLast : Bool) :
    List (Int × ReplSet G × ElectEnv G) → List (Outcome G)
  | [] => []
  | (steppedDown, rs, env) :: rest =>
    let o := Consensus._electSelf cmp { sleptLast := sleptLast, steppedDown := steppedDown } rs env
    o :: Consensus.attempts cmp o.sleptLast rest

/-! ## The contract of the position comparator -/

/-- Modelled from the spec: `GTID::cmp` is not among the sources at hand; the
spec asks of the comparator of log positions that it is a total order.  For a
three-way comparator: it is zero exactly on equal positions, swapping the
arguments swaps the sign, and "less than" is transitive. -/
structure IsTotalOrderCmp {G : Type} (cmp : G → G → Int) : Prop where
  eq_iff : ∀ a b, cmp a b = 0 ↔ a = b
  swap : ∀ a b, cmp a b < 0 ↔ 0 < cmp b a
  trans : ∀ a b c, cmp a b < 0 → cmp b c < 0 → cmp a c < 0

/-! ## Concrete data for the examples -/

/-- A comparator on positions that are natural numbers. -/
def natCmp (a b : Nat) : Int := if a < b then -1 else if a = b then 0 else 1

/-- A member with one vote and priority 1 whose heartbeat reports the given
state. -/
def exampleMember (id : Nat) (host : String) (up : Bool) (gtid hkp : Nat) : Member Nat :=
  { id := id
    fullName := host
    config := { votes := 1, priority := 1, arbiterOnly := false, slaveDelay := 0 }
    hbinfo := { up := up, maybeUp := up, gtid := gtid, highestKnownPrimaryInSet := hkp } }

/-- The replica set `rs0` at config version 1 as seen by `self`: no primary, every
listed member electable, the epoch store at `hkp` accepting only a strictly
higher epoch. -/
def exampleSet (self : Member Nat) (others : List (Member Nat)) (live hkp : Nat) :
    ReplSet Nat :=
  { name := "rs0"
    version := 1
    self := self
    members := others
    lockedByMe := false
    getPrimary := none
    isPrimary := false
    getMostElectable := none
    findById := fun id => (self :: others).find? (fun m => m.id == id)
    isElectable := fun id => (self :: others).any (fun m => m.id == id)
    lastOtherGTID := (others.map (fun m => m.hbinfo.gtid)).foldl max 0
    getHighestKnownPrimaryAcrossSet :=
      (others.map (fun m => m.hbinfo.highestKnownPrimaryInSet)).foldl max 0
    getLiveState := live
    getHighestKnownPrimary := hkp
    acceptPossiblePrimary := fun p _ => decide (hkp < p) }

/-- Member 2 of a three-member set, at position 100 and epoch 7. -/
def exampleResponder : ReplSet Nat :=
  exampleSet (exampleMember 2 "b:27017" true 100 7)
    [exampleMember 1 "a:27017" true 100 7, exampleMember 3 "c:27017" true 100 7] 100 7

/-- An elect request of member 1 that proposes the given epoch. -/
def exampleElectCmd (primaryToUse : Nat) : ElectCmd Nat :=
  { set := "rs0", who := "a:27017", whoid := 1, cfgver := 1, round := 9,
    primaryToUse := some primaryToUse, gtid := 100 }

/-- A fresh query of member 1 at the given position. -/
def exampleFreshCmd (gtid : Nat) : FreshCmd Nat :=
  { set := "rs0", GTID := gtid, who := "a:27017", cfgver := 1, id := 1 }

/-- The network in which every host answers the fresh query with the given
reply. -/
def exampleFreshNet (r : FreshResult Nat) : String → Bool × FreshResult Nat :=
  fun _ => (true, r)

/-- Member 1 of the three-member set, at the given position and epoch, the two
others up. -/
def exampleCandidate (live hkp : Nat) : ReplSet Nat :=
  exampleSet (exampleMember 1 "a:27017" true live hkp)
    [exampleMember 2 "b:27017" true 100 hkp, exampleMember 3 "c:27017" true 100 hkp] live hkp

/-- An environment of `_electSelf` for the example candidate: the process has
been up for an hour, every host answers the fresh query with `r` and the elect
request with `vote`, and the election phase finds the replica set as `rs`. -/
def exampleEnv (rs : ReplSet Nat) (r : FreshResult Nat) (vote : Int) : ElectEnv Nat :=
  { timeAtEntry := 5000, timeAtGrace := 5000, timeAtStart := 5000, timeAfterTally := 5001
    started := 1400, rand := 12345, freshNet := exampleFreshNet r
    liveAfterFresh := rs.getLiveState, round := 9, rsElect := rs
    electNet := fun _ => (true, { vote := vote, round := 9 })
    versionAfterTally := rs.version }

/-- The reply of a member at position 100 and epoch 7 that finds the candidate
behind. -/
def exampleFresherReply : FreshResult Nat :=
  { GTID := 100, fresher := true, veto := false, errmsg := none, hkp := some 7 }

/-- The reply of a member at position 100 and epoch 7 that has nothing against
the candidate. -/
def exampleGrantReply : FreshResult Nat :=
  { GTID := 100, fresher := false, veto := false, errmsg := none, hkp := some 7 }

/-- The example environment in which member 2 answers the elect request with a
veto and member 3 with its vote. -/
def exampleVetoEnv : ElectEnv Nat :=
  { exampleEnv (exampleCandidate 100 7) exampleGrantReply 1 with
    electNet := fun h =>
      if h = "b:27017" then (true, { vote := -10000, round := 9 })
      else (true, { vote := 1, round := 9 }) }

/-- A fresh reply that reports the largest `uint64_t` as highest known primary. -/
def exampleMaxHkpReply : FreshResult Nat :=
  { GTID := 100, fresher := false, veto := false, errmsg := none,
    hkp := some 18446744073709551615 }

/-- Member 3 of a three-member set in which member 2 has priority 2 and is the
most electable member. -/
def examplePriorityResponder : ReplSet Nat :=
  { exampleSet (exampleMember 3 "c:27017" true 100 7)
      [exampleMember 1 "a:27017" true 100 7,
       { exampleMember 2 "b:27017" true 100 7 with
         config := { votes := 1, priority := 2, arbiterOnly := false, slaveDelay := 0 } }]
      100 7 with
    getMostElectable :=
      some { exampleMember 2 "b:27017" true 100 7 with
             config := { votes := 1, priority := 2, arbiterOnly := false, slaveDelay := 0 } } }

/-- The network in which only `b:27017` answers the fresh query. -/
def exampleDownNet : String → Bool × FreshResult Nat :=
  fun h => if h = "b:27017" then (true, exampleGrantReply) else (false, exampleGrantReply)

/-- Member 1 of the three-member set when the heartbeat has member 3, which
carries one vote, as down. -/
def exampleDownCandidate : ReplSet Nat :=
  exampleSet (exampleMember 1 "a:27017" true 100 7)
    [exampleMember 2 "b:27017" true 100 7, exampleMember 3 "c:27017" false 100 7] 100 7

/-- Member 1 of the three-member set when member 3 is up and carries no vote. -/
def exampleNoVoteCandidate : ReplSet Nat :=
  exampleSet (exampleMember 1 "a:27017" true 100 7)
    [exampleMember 2 "b:27017" true 100 7,
     { exampleMember 3 "c:27017" true 100 7 with
       config := { votes := 0, priority := 1, arbiterOnly := false, slaveDelay := 0 } }] 100 7

/-- Member 0 of a three-member set, at position 100 and epoch 7, the two others
up and at the same position. -/
def exampleCandidateZero : ReplSet Nat :=
  exampleSet (exampleMember 0 "a:27017" true 100 7)
    [exampleMember 2 "b:27017" true 100 7, exampleMember 3 "c:27017" true 100 7] 100 7

/-- An environment of member 0 in which only `b:27017` answers the fresh query
and the process has been up for 100 seconds. -/
def exampleGraceEnv : ElectEnv Nat :=
  { exampleEnv exampleCandidateZero exampleGrantReply 1 with
    freshNet := exampleDownNet, started := 4900 }

/-- A member as `exampleMember` that carries the given number of votes and whose
heartbeat has it up or down as given. -/
def exampleVotesMember (id : Nat) (host : String) (up : Bool) (votes : Nat) : Member Nat :=
  { exampleMember id host up 100 7 with
    config := { votes := votes, priority := 1, arbiterOnly := false, slaveDelay := 0 } }

/-- Member 2, configured with 3000000000 votes, of a two-member set; member 1 is
up and at the same position and epoch. -/
def exampleBigVoteResponder : ReplSet Nat :=
  exampleSet (exampleVotesMember 2 "b:27017" true 3000000000)
    [exampleVotesMember 1 "a:27017" true 1] 100 7

/-- An elect request of member 1 in the older protocol, without `primaryToUse`. -/
def exampleBigVoteCmd : ElectCmd Nat :=
  { exampleElectCmd 8 with primaryToUse := none }

/-- The answer a candidate receives for a fresh query that the responder handled
with the given outcome: `ok` with the reply, or not `ok`. -/
def freshAnswer (o : CmdOutcome (FreshResult Nat)) : Bool × FreshResult Nat :=
  match o with
  | .done r => (true, r)
  | _ => (false, { GTID := 0, fresher := false, veto := false, errmsg := none, hkp := none })

/-- The answer a candidate receives for an elect request that the responder
handled with the given outcome. -/
def electAnswer (o : ElectCmdOutcome Nat) : Bool × ElectResult :=
  match o.reply with
  | some r => (true, r)
  | none => (false, { vote := 0, round := 0 })

/-- Member 3 of the three-member set `rs0`, at position 100, with its epoch store
at `hkp`; members 1 and 2 are up and at position 101. -/
def raceResponder (hkp : Nat) : ReplSet Nat :=
  exampleSet (exampleMember 3 "c:27017" true 100 hkp)
    [exampleMember 1 "a:27017" true 101 6, exampleMember 2 "b:27017" true 101 6] 100 hkp

/-- Member 1, at position 101 and epoch 6; it cannot reach member 2 and has it as
down. -/
def raceCandidateA : ReplSet Nat :=
  exampleSet (exampleMember 1 "a:27017" true 101 6)
    [exampleMember 2 "b:27017" false 101 6, exampleMember 3 "c:27017" true 100 6] 101 6

/-- Member 2, at position 101 and epoch 6; it cannot reach member 1 and has it as
down. -/
def raceCandidateB : ReplSet Nat :=
  exampleSet (exampleMember 2 "b:27017" true 101 6)
    [exampleMember 1 "a:27017" false 101 6, exampleMember 3 "c:27017" true 100 6] 101 6

/-- The elect request of member 1 for epoch 7. -/
def raceElectCmdA : ElectCmd Nat :=
  { set := "rs0", who := "a:27017", whoid := 1, cfgver := 1, round := 9,
    primaryToUse := some 7, gtid := 101 }

/-- The elect request of member 2 for epoch 7. -/
def raceElectCmdB : ElectCmd Nat :=
  { set := "rs0", who := "b:27017", whoid := 2, cfgver := 1, round := 10,
    primaryToUse := some 7, gtid := 101 }

/-- The attempt of member 1: member 3 answers its fresh query with its epoch
store at 6, and its elect request, the first to arrive, with the store still
at 6; the unassigned `voteYes` of member 3 reads as true. -/
def raceEnvA : ElectEnv Nat :=
  { timeAtEntry := 5000, timeAtGrace := 5000, timeAtStart := 5000, timeAfterTally := 5001
    started := 1400, rand := 12345
    freshNet := fun _ =>
      freshAnswer (CmdReplSetFresh.run natCmp (raceResponder 6) none (exampleFreshCmd 101) "")
    liveAfterFresh := 101, round := 9, rsElect := raceCandidateA
    electNet := fun _ =>
      electAnswer (Consensus.electCmdReceived (raceResponder 6) true raceElectCmdA)
    versionAfterTally := 1 }

/-- The attempt of member 2: member 3 answers its fresh query with its epoch
store at 6, before any elect request, and its elect request, the second to
arrive, with the store at 7 after the proposal of member 1; the unassigned
`voteYes` of member 3 reads as true again. -/
def raceEnvB : ElectEnv Nat :=
  { timeAtEntry := 5000, timeAtGrace := 5000, timeAtStart := 5000, timeAfterTally := 5001
    started := 1400, rand := 12345
    freshNet := fun _ =>
      freshAnswer (CmdReplSetFresh.run natCmp (raceResponder 6) none
        { exampleFreshCmd 101 with who := "b:27017", id := 2 } "")
    liveAfterFresh := 101, round := 10, rsElect := raceCandidateB
    electNet := fun _ =>
      electAnswer (Consensus.electCmdReceived (raceResponder 7) true raceElectCmdB)
    versionAfterTally := 1 }

/-! ## Properties -/

/-- Converting an intermediate sum to `int` does not change the converted sum. -/
theorem toInt_toInt_add (a b : Int) : toInt (toInt a + b) = toInt (a + b) := by
  unfold toInt
  omega

/-- A value in the range of `int` is not changed by the conversion. -/
theorem toInt_of_range (x : Int) (h1 : -2147483648 ≤ x) (h2 : x < 2147483648) :
    toInt x = x := by
  unfold toInt
  omega

/-- A converted value is in the range of `int`. -/
theorem toInt_range (x : Int) : -2147483648 ≤ toInt x ∧ toInt x < 2147483648 := by
  unfold toInt
  omega

/-- Adding terms one by one into an `int` gives the converted sum. -/
theorem foldl_toInt {α : Type} (f : α → Int) (l : List α) (a : Int) :
    l.foldl (fun v x => toInt (v + f x)) (toInt a) = toInt (a + (l.map f).sum) := by
  induction l generalizing a with
  | nil => simp
  | cons x rest ih =>
    simp only [List.foldl_cons, List.map_cons, List.sum_cons, toInt_toInt_add, ih]
    congr 1
    ring

/-- A sum of votes is not negative. -/
theorem votes_sum_nonneg {G : Type} (ms : List (Member G)) :
    0 ≤ (ms.map (fun m => (m.config.votes : Int))).sum := by
  induction ms with
  | nil => simp
  | cons m rest ih =>
    simp only [List.map_cons, List.sum_cons]
    have : (0 : Int) ≤ (m.config.votes : Int) := Int.natCast_nonneg _
    omega

/-- The votes of the members that pass a filter are at most the votes of all. -/
theorem votes_filter_le {G : Type} (p : Member G → Bool) (ms : List (Member G)) :
    ((ms.filter p).map (fun m => (m.config.votes : Int))).sum
      ≤ (ms.map (fun m => (m.config.votes : Int))).sum := by
  induction ms with
  | nil => simp
  | cons m rest ih =>
    by_cases hp : p m = true
    · simp only [List.filter_cons_of_pos hp, List.map_cons, List.sum_cons]
      omega
    · simp only [List.filter_cons_of_neg hp, List.map_cons, List.sum_cons]
      have : (0 : Int) ≤ (m.config.votes : Int) := Int.natCast_nonneg _
      omega

/-- The total of `totalVotes()` is the votes of self plus the votes of every
member of the list, without any test of its heartbeat state, as an `int`. -/
theorem totalVotes_eq_sum {G : Type} (rs : ReplSet G) :
    Consensus.totalVotes rs =
      toInt ((rs.self.config.votes : Int)
        + (rs.members.map (fun m => (m.config.votes : Int))).sum) := by
  unfold Consensus.totalVotes
  exact foldl_toInt (fun m : Member G => (m.config.votes : Int)) rs.members _

/-- The decision after the tally reaches `assumePrimary` exactly under the four
success criteria. -/
theorem assumePrimary_mem_electDecision_iff {G : Type} (rs : ReplSet G) (tally start now : Int)
    (configVersion versionNow : Int) (primaryToUse q : Nat) :
    Event.assumePrimary q ∈
        Consensus.electDecision rs tally start now configVersion versionNow primaryToUse ↔
      q = primaryToUse ∧ tally * 2 > Consensus.totalVotes rs ∧ now - start ≤ 30 ∧
        configVersion = versionNow ∧
        rs.acceptPossiblePrimary primaryToUse rs.getLiveState = true := by
  unfold Consensus.electDecision
  by_cases h1 : tally * 2 ≤ Consensus.totalVotes rs
  · simp [h1]
  · by_cases h2 : now - start > 30
    · simp only [h1, h2, if_false, if_true, List.not_mem_nil, false_iff]
      rintro ⟨_, _, h, _⟩
      omega
    · by_cases h3 : configVersion = versionNow
      · by_cases h4 : rs.acceptPossiblePrimary primaryToUse rs.getLiveState = true
        · simp [h1, h2, h3, h4]; omega
        · simp [h1, h2, h3, h4]
      · simp [h1, h2, h3]

/-- The election phase reaches `assumePrimary` exactly when the fan-out was made
and the four success criteria hold. -/
theorem assumePrimary_mem_electPhase_iff {G : Type} (me : Member G) (env : ElectEnv G)
    (highestKnownPrimary q : Nat) :
    Event.assumePrimary q ∈ (Consensus.electPhase me env highestKnownPrimary).trace ↔
    env.rsElect.lockedByMe = false ∧
    q = (highestKnownPrimary + 1) % UINT64_MOD ∧
    Consensus.tallyVotes (toInt (Consensus.yea env.rsElect me.id : Int))
        (multiCommand env.electNet (ReplSetImpl.getTargets env.rsElect).1) * 2
      > Consensus.totalVotes env.rsElect ∧
    env.timeAfterTally - env.timeAtStart ≤ 30 ∧
    (ReplSetImpl.getTargets env.rsElect).2 = env.versionAfterTally ∧
    env.rsElect.acceptPossiblePrimary q env.rsElect.getLiveState = true := by
  unfold Consensus.electPhase Consensus.multiCommand
  by_cases hl : env.rsElect.lockedByMe = true
  · simp [hl]
  · simp only [hl, Bool.false_eq_true, if_false, List.mem_cons, reduceCtorEq, false_or,
      assumePrimary_mem_electDecision_iff]
    constructor
    · rintro ⟨h1, h2, h3, h4, h5⟩
      subst h1
      exact ⟨trivial, rfl, h2, h3, h4, h5⟩
    · rintro ⟨_, h1, h2, h3, h4, h5⟩
      subst h1
      exact ⟨rfl, h2, h3, h4, h5⟩

/-- C2. `shouldVeto(id, cfgver)` returns false exactly when none of these holds:
no member with that id; the local config version strictly greater than
`cfgver`; the local node primary; some primary known; a most electable member
with strictly higher priority than the candidate; the candidate not electable.
With an equal config version and an equal priority (and nothing else against
the candidate) it returns false. -/
theorem shouldVeto_false_iff {G : Type} (theReplSet : ReplSet G) (id : Nat) (cfgver : Int)
    (errmsg : String) :
    ((shouldVeto theReplSet id cfgver errmsg).1 = false ↔
      ¬ (theReplSet.findById id = none ∨
         theReplSet.version > cfgver ∨
         theReplSet.isPrimary = true ∨
         theReplSet.getPrimary ≠ none ∨
         (∃ hp hopeful, theReplSet.getMostElectable = some hp ∧
            theReplSet.findById id = some hopeful ∧
            hp.config.priority > hopeful.config.priority) ∨
         theReplSet.isElectable id = false)) ∧
    (∀ hopeful hp : Member G,
      (shouldVeto
        { theReplSet with
          findById := fun _ => some hopeful
          version := cfgver
          isPrimary := false
          getPrimary := none
          getMostElectable :=
            some { hp with config := { hp.config with priority := hopeful.config.priority } }
          isElectable := fun _ => true } id cfgver errmsg).1 = false) := by
  refine ⟨?_, ?_⟩
  · unfold shouldVeto
    cases hf : theReplSet.findById id with
    | none => simp
    | some hopeful =>
      by_cases hv : theReplSet.version > cfgver
      · simp [hv]
      · by_cases hp : theReplSet.isPrimary = true
        · simp [hv, hp]
        · cases hprim : theReplSet.getPrimary with
          | some p => simp [hv, hp]
          | none =>
            cases hme : theReplSet.getMostElectable with
            | none =>
              cases he : theReplSet.isElectable id <;> simp [hv, hp, he]
            | some m =>
              by_cases hpr : m.config.priority > hopeful.config.priority
              · simp [hv, hp, hpr]
              · cases he : theReplSet.isElectable id <;> simp [hv, hp, hpr, he]
  · intro hopeful hp
    simp [shouldVeto]

/-- C3. The reply of `electCmdReceived` does not depend on what the epoch store
answers: the result of `acceptPossiblePrimary` is dropped and the vote follows
the unassigned local `voteYes`.  At the example responder (one vote, epoch 7) a
request proposing epoch 5, which the store rejects, is answered `vote = 1` when
`voteYes` happens to be true, and a request proposing epoch 8, which the store
accepts, is answered `vote = 0` when it happens to be false. -/
theorem electCmdReceived_ignores_epoch_store :
    (∀ (G : Type) (rs : ReplSet G) (voteYesUninit : Bool) (cmd : ElectCmd G)
        (accept : Nat → G → Bool),
      (Consensus.electCmdReceived { rs with acceptPossiblePrimary := accept }
          voteYesUninit cmd).reply
        = (Consensus.electCmdReceived rs voteYesUninit cmd).reply) ∧
    (shouldVeto exampleResponder 1 1 "").1 = false ∧
    exampleResponder.acceptPossiblePrimary 5 100 = false ∧
    (Consensus.electCmdReceived exampleResponder true (exampleElectCmd 5)).reply
      = some { vote := 1, round := 9 } ∧
    exampleResponder.acceptPossiblePrimary 8 100 = true ∧
    (Consensus.electCmdReceived exampleResponder false (exampleElectCmd 8)).reply
      = some { vote := 0, round := 9 } := by
  refine ⟨?_, ?_, ?_, ?_, ?_, ?_⟩
  · intro G rs u cmd accept
    simp [Consensus.electCmdReceived, shouldVeto, Consensus.yea]
  · decide
  · decide
  · decide
  · decide
  · decide

/-- The `fresher` field of a reply built by `CmdReplSetFresh::run`. -/
theorem fresh_run_fresher {G : Type} (cmp : G → G → Int) (theReplSet : ReplSet G)
    (check : Option String) (cmdObj : FreshCmd G) (errmsg : String) (r : FreshResult G)
    (h : CmdReplSetFresh.run cmp theReplSet check cmdObj errmsg = .done r) :
    r.fresher = (decide (cmp cmdObj.GTID theReplSet.getLiveState < 0)
      || decide (cmp cmdObj.GTID theReplSet.lastOtherGTID < 0)) := by
  unfold CmdReplSetFresh.run at h
  cases check with
  | some e => simp at h
  | none =>
    by_cases hs : cmdObj.set = theReplSet.name
    · simp only [hs, ne_eq, not_true_eq_false, if_false] at h
      split at h
      · split at h
        · simp at h
        · simp only [CmdOutcome.done.injEq] at h
          rw [← h]
      · simp only [CmdOutcome.done.injEq] at h
        rw [← h]
    · simp [hs] at h

/-- The `GTID` field of a reply built by `CmdReplSetFresh::run` is the live state
of the responder. -/
theorem fresh_run_GTID {G : Type} (cmp : G → G → Int) (theReplSet : ReplSet G)
    (check : Option String) (cmdObj : FreshCmd G) (errmsg : String) (r : FreshResult G)
    (h : CmdReplSetFresh.run cmp theReplSet check cmdObj errmsg = .done r) :
    r.GTID = theReplSet.getLiveState := by
  unfold CmdReplSetFresh.run at h
  cases check with
  | some e => simp at h
  | none =>
    by_cases hs : cmdObj.set = theReplSet.name
    · simp only [hs, ne_eq, not_true_eq_false, if_false] at h
      split at h
      · split at h
        · simp at h
        · simp only [CmdOutcome.done.injEq] at h
          rw [← h]
      · simp only [CmdOutcome.done.injEq] at h
        rw [← h]
    · simp [hs] at h

/-- A candidate that `shouldVeto` lets pass is electable. -/
theorem shouldVeto_false_isElectable {G : Type} (theReplSet : ReplSet G) (id : Nat)
    (config : Int) (errmsg : String) (h : (shouldVeto theReplSet id config errmsg).1 = false) :
    theReplSet.isElectable id = true := by
  cases he : theReplSet.isElectable id with
  | true => rfl
  | false =>
    exfalso
    unfold shouldVeto at h
    cases hf : theReplSet.findById id with
    | none => simp [hf] at h
    | some hopeful =>
      by_cases hv : theReplSet.version > config
      · simp [hf, hv] at h
      · by_cases hp : theReplSet.isPrimary = true
        · simp [hf, hv, hp] at h
        · cases hprim : theReplSet.getPrimary with
          | some p => simp [hf, hv, hp, hprim] at h
          | none =>
            cases hme : theReplSet.getMostElectable with
            | none => simp [hf, hv, hp, hprim, hme, he] at h
            | some m =>
              by_cases hpr : m.config.priority > hopeful.config.priority
              · simp [hf, hv, hp, hprim, hme, hpr] at h
              · simp [hf, hv, hp, hprim, hme, hpr, he] at h

/-- A fresh query that passes `check` and names the set of the responder is
answered, and this is the reply. -/
theorem fresh_run_eq {G : Type} (cmp : G → G → Int) (theReplSet : ReplSet G)
    (cmdObj : FreshCmd G) (errmsg : String) (hset : cmdObj.set = theReplSet.name) :
    CmdReplSetFresh.run cmp theReplSet none cmdObj errmsg =
      .done
        { GTID := theReplSet.getLiveState
          fresher := decide (cmp cmdObj.GTID theReplSet.getLiveState < 0)
            || decide (cmp cmdObj.GTID theReplSet.lastOtherGTID < 0)
          veto := (shouldVeto theReplSet (toUnsigned cmdObj.id) cmdObj.cfgver errmsg).1
          errmsg :=
            if (shouldVeto theReplSet (toUnsigned cmdObj.id) cmdObj.cfgver errmsg).1 then
              some (shouldVeto theReplSet (toUnsigned cmdObj.id) cmdObj.cfgver errmsg).2
            else none
          hkp := some (max theReplSet.getHighestKnownPrimary
            theReplSet.getHighestKnownPrimaryAcrossSet) } := by
  unfold CmdReplSetFresh.run
  simp only [hset, ne_eq, not_true_eq_false, if_false]
  cases hsv : (shouldVeto theReplSet (toUnsigned cmdObj.id) cmdObj.cfgver errmsg).1 with
  | true => simp
  | false =>
    have he := shouldVeto_false_isElectable theReplSet _ _ _ hsv
    simp [he]

/-- C4. Every fresh query that passes `check` and names the set of the responder
gets a reply, and in it `fresher` is true exactly when the position of the
candidate is strictly less than the live position of the responder or strictly
less than its `lastOtherGTID`; any responder state with the same two positions,
whatever its veto decision, replies with the same `fresher`. -/
theorem fresh_reply_fresher_iff {G : Type} (cmp : G → G → Int) (theReplSet : ReplSet G)
    (cmdObj : FreshCmd G) (errmsg : String) (hset : cmdObj.set = theReplSet.name) :
    ∃ r, CmdReplSetFresh.run cmp theReplSet none cmdObj errmsg = .done r ∧
      (r.fresher = true ↔
        cmp cmdObj.GTID theReplSet.getLiveState < 0
          ∨ cmp cmdObj.GTID theReplSet.lastOtherGTID < 0) ∧
      (∀ (other : ReplSet G) (cmdObj2 : FreshCmd G) (errmsg2 : String),
        cmdObj2.set = other.name →
        other.getLiveState = theReplSet.getLiveState →
        other.lastOtherGTID = theReplSet.lastOtherGTID →
        cmdObj2.GTID = cmdObj.GTID →
        ∃ r2, CmdReplSetFresh.run cmp other none cmdObj2 errmsg2 = .done r2 ∧
          r2.fresher = r.fresher) := by
  refine ⟨_, fresh_run_eq cmp theReplSet cmdObj errmsg hset, ?_, ?_⟩
  · simp
  · intro other cmdObj2 errmsg2 hset2 h1 h2 h3
    refine ⟨_, fresh_run_eq cmp other cmdObj2 errmsg2 hset2, ?_⟩
    simp only [h1, h2, h3]

/-- C4, at an example: member 2 at position 100 answers a query of member 1 at
position 50 with `fresher = true` and no veto. -/
theorem fresh_reply_fresher_iff_witness :
    CmdReplSetFresh.run natCmp exampleResponder none (exampleFreshCmd 50) ""
        = .done exampleFresherReply ∧
    ∃ r, CmdReplSetFresh.run natCmp exampleResponder none (exampleFreshCmd 50) "" = .done r ∧
      (r.fresher = true ↔
        natCmp (exampleFreshCmd 50).GTID exampleResponder.getLiveState < 0
          ∨ natCmp (exampleFreshCmd 50).GTID exampleResponder.lastOtherGTID < 0) :=
  ⟨by decide,
   (fresh_reply_fresher_iff natCmp exampleResponder (exampleFreshCmd 50) "" rfl).imp
     (fun _ h => ⟨h.1, h.2.1⟩)⟩

/-- The loop of `shouldRelinquish` in closed form: it returns from inside exactly
when some up member is ahead or knows a higher primary, and otherwise adds the
votes of the up members one by one. -/
theorem shouldRelinquishLoop_fold {G : Type} (cmp : G → G → Int) (live : G) (hkp : Nat)
    (ms : List (Member G)) (vUp : Int) :
    Consensus.shouldRelinquishLoop cmp live hkp ms vUp =
      if ms.any (fun m => m.hbinfo.up &&
          (decide (cmp live m.hbinfo.gtid < 0)
            || decide (hkp < m.hbinfo.highestKnownPrimaryInSet))) then none
      else some ((ms.filter (fun m => m.hbinfo.up)).foldl
        (fun v m => toInt (v + (m.config.votes : Int))) vUp) := by
  induction ms generalizing vUp with
  | nil => simp [Consensus.shouldRelinquishLoop]
  | cons m rest ih =>
    unfold Consensus.shouldRelinquishLoop
    by_cases hup : m.hbinfo.up = true
    · by_cases h1 : cmp live m.hbinfo.gtid < 0
      · simp [hup, h1]
      · by_cases h2 : hkp < m.hbinfo.highestKnownPrimaryInSet
        · simp [hup, h2]
        · simp only [hup, h1, h2, if_true, if_false, ih, List.any_cons, decide_False,
            Bool.or_self, Bool.and_false, Bool.false_or, List.filter_cons_of_pos,
            List.foldl_cons]
    · simp only [Bool.not_eq_true] at hup
      simp [hup, ih]

/-- The loop of `shouldRelinquish` started from an `int`: the count it leaves is
the sum of the start value and the votes of the up members, as an `int`. -/
theorem shouldRelinquishLoop_eq {G : Type} (cmp : G → G → Int) (live : G) (hkp : Nat)
    (ms : List (Member G)) (x : Int) :
    Consensus.shouldRelinquishLoop cmp live hkp ms (toInt x) =
      if ms.any (fun m => m.hbinfo.up &&
          (decide (cmp live m.hbinfo.gtid < 0)
            || decide (hkp < m.hbinfo.highestKnownPrimaryInSet))) then none
      else some (toInt (x +
        ((ms.filter (fun m => m.hbinfo.up)).map (fun m => (m.config.votes : Int))).sum)) := by
  rw [shouldRelinquishLoop_fold,
    foldl_toInt (fun m : Member G => (m.config.votes : Int))]

/-- When the loop of `weAreFreshest` returns true, every reply that is `ok` has
neither `fresher` nor `veto` set and a position that is not greater than the
local one. -/
theorem weAreFreshestLoop_true {G : Type} (cmp : G → G → Int) (ourGTID liveNow : G)
    (L : List (Target (FreshResult G))) (st out : FreshOut)
    (h : Consensus.weAreFreshestLoop cmp ourGTID liveNow L st = .ok (true, out)) :
    ∀ t ∈ L, t.ok = true →
      t.result.fresher = false ∧ t.result.veto = false ∧ cmp t.result.GTID ourGTID ≤ 0 := by
  induction L generalizing st with
  | nil => simp
  | cons i rest ih =>
    unfold Consensus.weAreFreshestLoop at h
    intro t ht hok
    by_cases hi : i.ok = true
    · simp only [hi, if_true] at h
      by_cases hf : i.result.fresher = true
      · simp [hf] at h
      · simp only [hf, Bool.false_eq_true, if_false] at h
        by_cases hc : cmp i.result.GTID ourGTID ≤ 0
        · simp only [hc, not_true_eq_false, if_false] at h
          by_cases hv : i.result.veto = true
          · simp [hv] at h
          · simp only [hv, Bool.false_eq_true, if_false] at h
            rcases List.mem_cons.mp ht with rfl | ht
            · exact ⟨by simpa using hf, by simpa using hv, hc⟩
            · exact ih _ h t ht hok
        · simp [hc] at h
    · simp only [hi, Bool.false_eq_true, if_false] at h
      rcases List.mem_cons.mp ht with rfl | ht
      · exact absurd hok hi
      · exact ih _ h t ht hok

/-- The loop of `weAreFreshest` raises nothing but failed assertions. -/
theorem weAreFreshestLoop_ne_retry {G : Type} (cmp : G → G → Int) (ourGTID liveNow : G)
    (L : List (Target (FreshResult G))) (st : FreshOut) :
    Consensus.weAreFreshestLoop cmp ourGTID liveNow L st ≠ .error Exn.retryAfterSleep := by
  induction L generalizing st with
  | nil => unfold Consensus.weAreFreshestLoop; split <;> simp
  | cons i rest ih =>
    unfold Consensus.weAreFreshestLoop
    by_cases hi : i.ok = true
    · simp only [hi, if_true]
      by_cases hf : i.result.fresher = true
      · simp [hf]
      · simp only [hf, Bool.false_eq_true, if_false]
        by_cases hc : cmp i.result.GTID ourGTID ≤ 0
        · simp only [hc, not_true_eq_false, if_false]
          by_cases hv : i.result.veto = true
          · simp [hv]
          · simp only [hv, Bool.false_eq_true, if_false]
            exact ih _
        · simp [hc]
    · simp only [hi, Bool.false_eq_true, if_false]
      exact ih _

/-- The trace of `weAreFreshest` holds nothing but the fresh query. -/
theorem weAreFreshest_trace {G : Type} (cmp : G → G → Int) (rs : ReplSet G)
    (net : String → Bool × FreshResult G) (liveNow : G) :
    ∀ e ∈ (Consensus.weAreFreshest cmp rs net liveNow).trace,
      ∃ hosts cmd, e = Event.multiCommandFresh hosts cmd := by
  unfold Consensus.weAreFreshest Consensus.multiCommand
  by_cases hl : rs.lockedByMe = true
  · simp [hl]
  · simp [hl]

/-- When `weAreFreshest` returns true, the loop did, on the targets as the
fan-out filled them in. -/
theorem weAreFreshest_true {G : Type} (cmp : G → G → Int) (rs : ReplSet G)
    (net : String → Bool × FreshResult G) (liveNow : G) (out : FreshOut)
    (h : (Consensus.weAreFreshest cmp rs net liveNow).result = .ok (true, out)) :
    Consensus.weAreFreshestLoop cmp rs.getLiveState liveNow
        (multiCommand net (ReplSetImpl.getTargets rs).1)
        { allUp := true, nTies := 0, highestKnownPrimary := rs.getHighestKnownPrimary }
      = .ok (true, out) := by
  unfold Consensus.weAreFreshest Consensus.multiCommand at h
  by_cases hl : rs.lockedByMe = true
  · simp [hl] at h
  · simpa [hl] using h

/-- C5. For every list of fresh replies in which some `ok` reply has `fresher`
or `veto` set, the loop of `weAreFreshest` does not return true; and when the
fan-out of `_electSelf` produced that list, `_electSelf` performs nothing but
the fresh query (no elect request, no call on the epoch store, no
`assumePrimary`), does not raise retry-after-sleep and leaves `sleptLast` as it
was. -/
theorem notFreshest_aborts {G : Type} (cmp : G → G → Int) (ourGTID liveNow : G)
    (L : List (Target (FreshResult G))) (st : FreshOut) (t : Target (FreshResult G))
    (ht : t ∈ L) (hok : t.ok = true)
    (hbad : t.result.fresher = true ∨ t.result.veto = true) :
    (∀ out, Consensus.weAreFreshestLoop cmp ourGTID liveNow L st ≠ .ok (true, out)) ∧
    (∀ (c : Consensus) (rs : ReplSet G) (env : ElectEnv G),
      multiCommand env.freshNet (ReplSetImpl.getTargets rs).1 = L →
      (∀ out, (Consensus.weAreFreshest cmp rs env.freshNet env.liveAfterFresh).result
        ≠ .ok (true, out)) ∧
      (∀ e ∈ (Consensus._electSelf cmp c rs env).trace,
        ∃ hosts cmd, e = Event.multiCommandFresh hosts cmd) ∧
      (Consensus._electSelf cmp c rs env).result ≠ .error Exn.retryAfterSleep ∧
      (Consensus._electSelf cmp c rs env).sleptLast = c.sleptLast) := by
  have hloop : ∀ (our live : G) (st : FreshOut) (out : FreshOut),
      Consensus.weAreFreshestLoop cmp our live L st ≠ .ok (true, out) := by
    intro our live st out h
    have := weAreFreshestLoop_true cmp our live L st out h t ht hok
    rcases hbad with hb | hb
    · rw [hb] at this; simp at this
    · rw [hb] at this; simp at this
  refine ⟨hloop ourGTID liveNow st, ?_⟩
  intro c rs env hL
  have hfresh : ∀ out, (Consensus.weAreFreshest cmp rs env.freshNet env.liveAfterFresh).result
      ≠ .ok (true, out) := by
    intro out h
    have h2 := weAreFreshest_true cmp rs env.freshNet env.liveAfterFresh out h
    rw [hL] at h2
    exact hloop _ _ _ _ h2
  refine ⟨hfresh, ?_⟩
  unfold Consensus._electSelf
  by_cases hs : env.timeAtEntry < c.steppedDown
  · simp [hs]
  · simp only [hs, if_false]
    have htr := weAreFreshest_trace cmp rs env.freshNet env.liveAfterFresh
    cases hres : (Consensus.weAreFreshest cmp rs env.freshNet env.liveAfterFresh).result with
    | error e =>
      refine ⟨htr, ?_, rfl⟩
      unfold Consensus.weAreFreshest Consensus.multiCommand at hres
      by_cases hl : rs.lockedByMe = true
      · simp only [hl, if_true] at hres
        cases hres
        simp
      · simp only [hl, Bool.false_eq_true, if_false] at hres
        intro h
        have he : e = Exn.retryAfterSleep := by simpa using h
        subst he
        exact weAreFreshestLoop_ne_retry cmp _ _ _ _ hres
    | ok v =>
      obtain ⟨b, out⟩ := v
      cases b with
      | true => exact absurd hres (hfresh out)
      | false => exact ⟨htr, by simp, rfl⟩

/-- C5, at an example: member 1 at position 50 asks members 2 and 3 at position
100, who answer `fresher = true`; the attempt consists of the fresh query
alone. -/
theorem notFreshest_aborts_witness :
    (Consensus._electSelf natCmp { sleptLast := false, steppedDown := 0 }
        (exampleCandidate 50 7)
        (exampleEnv (exampleCandidate 50 7) exampleFresherReply 1)).trace
      = [Event.multiCommandFresh ["b:27017", "c:27017"] (exampleFreshCmd 50)] ∧
    (∀ out, Consensus.weAreFreshestLoop natCmp 50 50
        (multiCommand (exampleFreshNet exampleFresherReply) ["b:27017", "c:27017"])
        { allUp := true, nTies := 0, highestKnownPrimary := 7 } ≠ .ok (true, out)) :=
  ⟨by decide,
   (notFreshest_aborts natCmp 50 50
      (multiCommand (exampleFreshNet exampleFresherReply) ["b:27017", "c:27017"])
      { allUp := true, nTies := 0, highestKnownPrimary := 7 }
      { toHost := "b:27017", ok := true, result := exampleFresherReply }
      (by decide) rfl (Or.inl rfl)).1⟩

/-- The comparator `natCmp` is a total order. -/
theorem natCmp_isTotalOrderCmp : IsTotalOrderCmp natCmp where
  eq_iff := by
    intro a b
    unfold natCmp
    split
    · simp; omega
    · split <;> simp_all
  swap := by
    intro a b
    unfold natCmp
    rcases Nat.lt_trichotomy a b with h | h | h
    · have h1 : ¬ b < a := by omega
      have h2 : ¬ b = a := by omega
      simp [h, h1, h2]
    · subst h; simp
    · have h1 : ¬ a < b := by omega
      have h2 : ¬ a = b := by omega
      simp [h, h1, h2]
  trans := by
    intro a b c
    unfold natCmp
    intro h1 h2
    have hab : a < b := by
      by_contra hc
      simp only [hc, if_false] at h1
      split at h1 <;> simp at h1
    have hbc : b < c := by
      by_contra hc
      simp only [hc, if_false] at h2
      split at h2 <;> simp at h2
    have : a < c := by omega
    simp [this]

/-- C6. Freshness safety.  Let the comparator be a total order and let a
responder build its fresh reply `r` by `CmdReplSetFresh::run` from a query that
carries the position of the candidate.  If the loop of `weAreFreshest` of the
candidate returns true on a list that holds `r` as an `ok` reply, the position
of the candidate is not less than the live position of the responder nor than
its `lastOtherGTID`; the same holds when `weAreFreshest` of the candidate
returns true with `r` among the replies of its fan-out.  And if `r`
has `fresher = false`, the position in `r` is not greater than the position of
the candidate, so the `verify` on it in `weAreFreshest` holds. -/
theorem freshness_safety {G : Type} (cmp : G → G → Int) (hcmp : IsTotalOrderCmp cmp)
    (responder : ReplSet G) (check : Option String) (cmdObj : FreshCmd G) (errmsg : String)
    (r : FreshResult G)
    (hr : CmdReplSetFresh.run cmp responder check cmdObj errmsg = .done r) :
    (∀ (L : List (Target (FreshResult G))) (st out : FreshOut) (liveNow : G) (host : String),
      { toHost := host, ok := true, result := r } ∈ L →
      Consensus.weAreFreshestLoop cmp cmdObj.GTID liveNow L st = .ok (true, out) →
      0 ≤ cmp cmdObj.GTID responder.getLiveState ∧
      0 ≤ cmp cmdObj.GTID responder.lastOtherGTID) ∧
    (∀ (candidate : ReplSet G) (net : String → Bool × FreshResult G) (liveNow : G)
        (out : FreshOut) (host : String),
      { toHost := host, ok := true, result := r }
        ∈ multiCommand net (ReplSetImpl.getTargets candidate).1 →
      (Consensus.weAreFreshest cmp candidate net liveNow).result = .ok (true, out) →
      0 ≤ cmp cmdObj.GTID responder.getLiveState ∧
      0 ≤ cmp cmdObj.GTID responder.lastOtherGTID) ∧
    (r.fresher = false → cmp r.GTID cmdObj.GTID ≤ 0) := by
  have hf := fresh_run_fresher cmp responder check cmdObj errmsg r hr
  have hg := fresh_run_GTID cmp responder check cmdObj errmsg r hr
  have hfalse : r.fresher = false →
      0 ≤ cmp cmdObj.GTID responder.getLiveState ∧
      0 ≤ cmp cmdObj.GTID responder.lastOtherGTID := by
    intro h
    rw [hf] at h
    simp only [Bool.or_eq_false_iff, decide_eq_false_iff_not, not_lt] at h
    exact h
  refine ⟨?_, ?_, ?_⟩
  · intro L st out liveNow host hmem hloop
    have := weAreFreshestLoop_true cmp cmdObj.GTID liveNow L st out hloop _ hmem rfl
    exact hfalse this.1
  · intro candidate net liveNow out host hmem hres
    have hloop := weAreFreshest_true cmp candidate net liveNow out hres
    have := weAreFreshestLoop_true cmp _ liveNow _ _ out hloop _ hmem rfl
    exact hfalse this.1
  · intro h
    have h1 := (hfalse h).1
    rw [hg]
    by_contra hc
    have h2 : 0 < cmp responder.getLiveState cmdObj.GTID := by omega
    have h3 := (hcmp.swap cmdObj.GTID responder.getLiveState).mpr h2
    omega

/-- C6, at an example: member 2 at position 100 answers the query of member 1 at
position 100; the candidate is not behind and the `verify` on the reply
holds. -/
theorem freshness_safety_witness :
    CmdReplSetFresh.run natCmp exampleResponder none (exampleFreshCmd 100) ""
        = .done exampleGrantReply ∧
    (exampleGrantReply.fresher = false →
      natCmp exampleGrantReply.GTID (exampleFreshCmd 100).GTID ≤ 0) :=
  ⟨by decide,
   (freshness_safety natCmp natCmp_isTotalOrderCmp exampleResponder none (exampleFreshCmd 100)
      "" exampleGrantReply (by decide)).2.2⟩

/-- The tally over the targets that `getTargets` builds from a list of members:
each member contributes its vote when its reply is `ok` and nothing otherwise. -/
theorem tallyVotes_multiCommand {G : Type} (net : String → Bool × ElectResult) (tally : Int)
    (ms : List (Member G)) :
    Consensus.tallyVotes tally (multiCommand net (ms.map (fun m => m.fullName)))
      = tally + (ms.map (fun m =>
          if (net m.fullName).1 then (net m.fullName).2.vote else 0)).sum := by
  unfold Consensus.tallyVotes multiCommand
  induction ms generalizing tally with
  | nil => simp
  | cons m rest ih =>
    simp only [List.map_cons, List.foldl_cons, List.sum_cons, ih]
    split <;> ring

/-- A sum that stays below another term by term, with one term at least 10000
below, stays at least 10000 below. -/
theorem sum_add_le_of_veto {α : Type} (f g : α → Int) (l : List α)
    (hle : ∀ a ∈ l, f a ≤ g a) (hveto : ∃ a ∈ l, f a + 10000 ≤ g a) :
    (l.map f).sum + 10000 ≤ (l.map g).sum := by
  induction l with
  | nil => simp at hveto
  | cons a rest ih =>
    simp only [List.map_cons, List.sum_cons]
    obtain ⟨b, hb, hb2⟩ := hveto
    rcases List.mem_cons.mp hb with rfl | hb
    · have : (rest.map f).sum ≤ (rest.map g).sum :=
        List.sum_le_sum (fun x hx => hle x (List.mem_cons_of_mem _ hx))
      omega
    · have h1 := ih (fun x hx => hle x (List.mem_cons_of_mem _ hx)) ⟨b, hb, hb2⟩
      have h2 := hle a (List.mem_cons_self _ _)
      omega

/-- When the loop of `weAreFreshest` returns true, the highest known primary it
leaves is at least the one it started with and at least the `hkp` of every
reply that is `ok`. -/
theorem weAreFreshestLoop_hkp {G : Type} (cmp : G → G → Int) (ourGTID liveNow : G)
    (L : List (Target (FreshResult G))) (st out : FreshOut)
    (h : Consensus.weAreFreshestLoop cmp ourGTID liveNow L st = .ok (true, out)) :
    st.highestKnownPrimary ≤ out.highestKnownPrimary ∧
    ∀ t ∈ L, t.ok = true → ∀ k, t.result.hkp = some k →
      k % UINT64_MOD ≤ out.highestKnownPrimary := by
  induction L generalizing st with
  | nil =>
    unfold Consensus.weAreFreshestLoop at h
    split at h
    · simp only [Except.ok.injEq, Prod.mk.injEq, true_and] at h
      subst h
      simp
    · simp at h
  | cons i rest ih =>
    unfold Consensus.weAreFreshestLoop at h
    by_cases hi : i.ok = true
    · simp only [hi, if_true] at h
      by_cases hf : i.result.fresher = true
      · simp [hf] at h
      · simp only [hf, Bool.false_eq_true, if_false] at h
        by_cases hc : cmp i.result.GTID ourGTID ≤ 0
        · simp only [hc, not_true_eq_false, if_false] at h
          by_cases hv : i.result.veto = true
          · simp [hv] at h
          · simp only [hv, Bool.false_eq_true, if_false] at h
            have hst1 : (if cmp i.result.GTID ourGTID = 0 then
                ({ st with nTies := st.nTies + 1 } : FreshOut) else st).highestKnownPrimary
                = st.highestKnownPrimary := by
              split <;> rfl
            cases hk : i.result.hkp with
            | none =>
              simp only [hk] at h
              obtain ⟨h1, h2⟩ := ih _ h
              rw [hst1] at h1
              refine ⟨h1, ?_⟩
              intro t ht hok k hkt
              rcases List.mem_cons.mp ht with rfl | ht
              · rw [hk] at hkt; simp at hkt
              · exact h2 t ht hok k hkt
            | some k0 =>
              simp only [hk, hst1] at h
              obtain ⟨h1, h2⟩ := ih _ h
              have h3 : st.highestKnownPrimary ≤ out.highestKnownPrimary ∧
                  k0 % UINT64_MOD ≤ out.highestKnownPrimary := by
                split at h1
                · simp only at h1
                  omega
                · rw [hst1] at h1
                  omega
              refine ⟨h3.1, ?_⟩
              intro t ht hok k hkt
              rcases List.mem_cons.mp ht with rfl | ht
              · rw [hk] at hkt
                simp only [Option.some.injEq] at hkt
                subst hkt
                exact h3.2
              · exact h2 t ht hok k hkt
        · simp [hc] at h
    · simp only [hi, Bool.false_eq_true, if_false] at h
      obtain ⟨h1, h2⟩ := ih _ h
      refine ⟨h1, ?_⟩
      intro t ht hok k hkt
      rcases List.mem_cons.mp ht with rfl | ht
      · exact absurd hok hi
      · exact h2 t ht hok k hkt

/-- The actions of the election phase: the elect request, which carries
`primaryToUse`, and the calls of the decision, which are made with it. -/
theorem electPhase_trace {G : Type} (me : Member G) (env : ElectEnv G)
    (highestKnownPrimary : Nat) :
    ∀ e ∈ (Consensus.electPhase me env highestKnownPrimary).trace,
      (∃ hosts cmd, e = Event.multiCommandElect hosts cmd ∧
        cmd.primaryToUse = some ((highestKnownPrimary + 1) % UINT64_MOD)) ∨
      (∃ g, e = Event.acceptPossiblePrimary ((highestKnownPrimary + 1) % UINT64_MOD) g) ∨
      e = Event.handleHighestKnownPrimaryOfMember ((highestKnownPrimary + 1) % UINT64_MOD) ∨
      e = Event.assumePrimary ((highestKnownPrimary + 1) % UINT64_MOD) := by
  intro e he
  unfold Consensus.electPhase Consensus.multiCommand at he
  by_cases hl : env.rsElect.lockedByMe = true
  · simp [hl] at he
  · simp only [hl, Bool.false_eq_true, if_false, List.mem_cons] at he
    rcases he with rfl | he
    · exact Or.inl ⟨_, _, rfl, rfl⟩
    · unfold Consensus.electDecision at he
      split at he
      · simp at he
      · split at he
        · simp at he
        · split at he
          · simp at he
          · split at he
            · simp only [List.mem_singleton] at he
              exact Or.inr (Or.inl ⟨_, he⟩)
            · simp only [List.mem_cons, List.mem_singleton, List.not_mem_nil, or_false] at he
              rcases he with rfl | rfl | rfl
              · exact Or.inr (Or.inl ⟨_, rfl⟩)
              · exact Or.inr (Or.inr (Or.inl rfl))
              · exact Or.inr (Or.inr (Or.inr rfl))

/-- The actions of `_electSelf` after a freshness phase that returned true: the
fresh query, heartbeat messages, the sleep, and the actions of the election
phase run with the highest known primary that `weAreFreshest` returned. -/
theorem electSelf_trace {G : Type} (cmp : G → G → Int) (c : Consensus) (rs : ReplSet G)
    (env : ElectEnv G) (out : FreshOut)
    (hfresh : (Consensus.weAreFreshest cmp rs env.freshNet env.liveAfterFresh).result
      = .ok (true, out)) :
    ∀ e ∈ (Consensus._electSelf cmp c rs env).trace,
      (∃ hosts cmd, e = Event.multiCommandFresh hosts cmd) ∨
      (∃ msg, e = Event.sethbmsg msg) ∨
      (∃ ms, e = Event.sleepmillis ms) ∨
      e ∈ (Consensus.electPhase rs.self env out.highestKnownPrimary).trace := by
  intro e he
  have htr := weAreFreshest_trace cmp rs env.freshNet env.liveAfterFresh
  unfold Consensus._electSelf at he
  by_cases hs : env.timeAtEntry < c.steppedDown
  · simp [hs] at he
  · simp only [hs, if_false, hfresh] at he
    split at he
    · simp only [List.mem_append, List.mem_singleton] at he
      rcases he with (he | he) | he
      · exact Or.inl (htr e he)
      · exact Or.inr (Or.inl ⟨_, he⟩)
      · exact Or.inr (Or.inl ⟨_, he⟩)
    · split at he
      · split at he
        · simp only [List.mem_append, List.mem_singleton] at he
          rcases he with he | he
          · exact Or.inl (htr e he)
          · exact Or.inr (Or.inl ⟨_, he⟩)
        · simp only [List.mem_append, List.mem_singleton] at he
          rcases he with (he | he) | he
          · exact Or.inl (htr e he)
          · exact Or.inr (Or.inl ⟨_, he⟩)
          · exact Or.inr (Or.inr (Or.inl ⟨_, he⟩))
      · simp only [List.mem_append, List.mem_singleton] at he
        rcases he with (he | he) | he
        · exact Or.inl (htr e he)
        · exact Or.inr (Or.inl ⟨_, he⟩)
        · exact Or.inr (Or.inr (Or.inr he))

/-- C9, as stated, fails at the top of `uint64_t`.  Member 1 (position 101, local
highest known primary 7) receives fresh replies that report `hkp = 2^64 - 1`:
`weAreFreshest` returns that value, and the epoch sent in the elect request and
passed to `acceptPossiblePrimary` is 0, which is neither that value plus one nor
greater than the local highest known primary or the reported one. -/
theorem proposed_epoch_wraps :
    (Consensus.weAreFreshest natCmp (exampleCandidate 101 7)
        (exampleFreshNet exampleMaxHkpReply) 101).result
      = .ok (true, { allUp := true, nTies := 0, highestKnownPrimary := 18446744073709551615 }) ∧
    (Consensus._electSelf natCmp { sleptLast := false, steppedDown := 0 }
        (exampleCandidate 101 7)
        (exampleEnv (exampleCandidate 101 7) exampleMaxHkpReply 1)).trace
      = [Event.multiCommandFresh ["b:27017", "c:27017"] (exampleFreshCmd 101),
         Event.sethbmsg "",
         Event.multiCommandElect ["b:27017", "c:27017"]
           { set := "rs0", who := "a:27017", whoid := 1, cfgver := 1, round := 9,
             primaryToUse := some 0, gtid := 101 },
         Event.acceptPossiblePrimary 0 101] ∧
    ¬ ((0 : Nat) = 18446744073709551615 + 1) ∧
    ¬ ((exampleCandidate 101 7).getHighestKnownPrimary < 0) ∧
    ¬ (18446744073709551615 % UINT64_MOD < 0) := by
  refine ⟨by rfl, by decide, by decide, by decide, by decide⟩

/-- C9, amended.  After a freshness phase that returned the highest known
primary `hkp`, every elect request of `_electSelf` carries
`primaryToUse = (hkp + 1) mod 2^64`, and `acceptPossiblePrimary`,
`handleHighestKnownPrimaryOfMember` and `assumePrimary` are called with that
same value.  When `hkp + 1` does not wrap (`hkp + 1 < 2^64`), that value is
`hkp + 1` and is strictly greater than the local highest known primary and
than the `hkp` of every fresh reply that is `ok`. -/
theorem proposed_epoch {G : Type} (cmp : G → G → Int) (c : Consensus) (rs : ReplSet G)
    (env : ElectEnv G) (out : FreshOut)
    (hfresh : (Consensus.weAreFreshest cmp rs env.freshNet env.liveAfterFresh).result
      = .ok (true, out)) :
    (∀ e ∈ (Consensus._electSelf cmp c rs env).trace,
      (∀ hosts cmd, e = Event.multiCommandElect hosts cmd →
        cmd.primaryToUse = some ((out.highestKnownPrimary + 1) % UINT64_MOD)) ∧
      (∀ q g, e = Event.acceptPossiblePrimary q g →
        q = (out.highestKnownPrimary + 1) % UINT64_MOD) ∧
      (∀ q, e = Event.handleHighestKnownPrimaryOfMember q →
        q = (out.highestKnownPrimary + 1) % UINT64_MOD) ∧
      (∀ q, e = Event.assumePrimary q →
        q = (out.highestKnownPrimary + 1) % UINT64_MOD)) ∧
    (out.highestKnownPrimary + 1 < UINT64_MOD →
      (out.highestKnownPrimary + 1) % UINT64_MOD = out.highestKnownPrimary + 1 ∧
      rs.getHighestKnownPrimary < out.highestKnownPrimary + 1 ∧
      ∀ t ∈ multiCommand env.freshNet (ReplSetImpl.getTargets rs).1, t.ok = true →
        ∀ k, t.result.hkp = some k → k % UINT64_MOD < out.highestKnownPrimary + 1) := by
  refine ⟨?_, ?_⟩
  · intro e he
    rcases electSelf_trace cmp c rs env out hfresh e he with
      ⟨_, _, rfl⟩ | ⟨_, rfl⟩ | ⟨_, rfl⟩ | hel
    · simp
    · simp
    · simp
    · rcases electPhase_trace rs.self env out.highestKnownPrimary e hel with
        ⟨_, _, rfl, hp⟩ | ⟨_, rfl⟩ | rfl | rfl
      · refine ⟨?_, by simp, by simp, by simp⟩
        intro hosts cmd heq
        simp only [Event.multiCommandElect.injEq] at heq
        rw [← heq.2]
        exact hp
      · refine ⟨by simp, ?_, by simp, by simp⟩
        intro q g heq
        simp only [Event.acceptPossiblePrimary.injEq] at heq
        exact heq.1.symm
      · refine ⟨by simp, by simp, ?_, by simp⟩
        intro q heq
        simp only [Event.handleHighestKnownPrimaryOfMember.injEq] at heq
        exact heq.symm
      · refine ⟨by simp, by simp, by simp, ?_⟩
        intro q heq
        simp only [Event.assumePrimary.injEq] at heq
        exact heq.symm
  · intro hlt
    have hloop := weAreFreshest_true cmp rs env.freshNet env.liveAfterFresh out hfresh
    obtain ⟨h1, h2⟩ := weAreFreshestLoop_hkp cmp _ _ _ _ out hloop
    refine ⟨Nat.mod_eq_of_lt hlt, ?_, ?_⟩
    · simp only at h1
      omega
    · intro t ht hok k hk
      have := h2 t ht hok k hk
      omega

/-- C9, amended, at an example: member 1 (position 101, local highest known
primary 7) hears `hkp = 7` from members 2 and 3, proposes epoch 8 and assumes
primary with it. -/
theorem proposed_epoch_witness :
    Event.assumePrimary 8 ∈
      (Consensus._electSelf natCmp { sleptLast := false, steppedDown := 0 }
        (exampleCandidate 101 7)
        (exampleEnv (exampleCandidate 101 7) exampleGrantReply 1)).trace ∧
    ((7 : Nat) + 1 < UINT64_MOD →
      (7 + 1) % UINT64_MOD = 7 + 1 ∧
      (exampleCandidate 101 7).getHighestKnownPrimary < 7 + 1 ∧
      ∀ t ∈ multiCommand (exampleEnv (exampleCandidate 101 7) exampleGrantReply 1).freshNet
          (ReplSetImpl.getTargets (exampleCandidate 101 7)).1, t.ok = true →
        ∀ k, t.result.hkp = some k → k % UINT64_MOD < 7 + 1) :=
  ⟨by decide,
   (proposed_epoch natCmp { sleptLast := false, steppedDown := 0 } (exampleCandidate 101 7)
      (exampleEnv (exampleCandidate 101 7) exampleGrantReply 1)
      { allUp := true, nTies := 0, highestKnownPrimary := 7 } (by rfl)).2⟩

/-- An `assumePrimary` of `_electSelf` is one of its election phase, entered
after a freshness phase that returned true. -/
theorem assumePrimary_mem_electSelf {G : Type} (cmp : G → G → Int) (c : Consensus)
    (rs : ReplSet G) (env : ElectEnv G) (q : Nat)
    (h : Event.assumePrimary q ∈ (Consensus._electSelf cmp c rs env).trace) :
    ∃ out, (Consensus.weAreFreshest cmp rs env.freshNet env.liveAfterFresh).result
        = .ok (true, out) ∧
      Event.assumePrimary q
        ∈ (Consensus.electPhase rs.self env out.highestKnownPrimary).trace := by
  have htr := weAreFreshest_trace cmp rs env.freshNet env.liveAfterFresh
  cases hres : (Consensus.weAreFreshest cmp rs env.freshNet env.liveAfterFresh).result with
  | error e =>
    exfalso
    unfold Consensus._electSelf at h
    by_cases hs : env.timeAtEntry < c.steppedDown
    · simp [hs] at h
    · simp only [hs, if_false, hres] at h
      obtain ⟨_, _, h2⟩ := htr _ h
      cases h2
  | ok v =>
    obtain ⟨b, out⟩ := v
    cases b with
    | false =>
      exfalso
      unfold Consensus._electSelf at h
      by_cases hs : env.timeAtEntry < c.steppedDown
      · simp [hs] at h
      · simp only [hs, if_false, hres] at h
        obtain ⟨_, _, h2⟩ := htr _ h
        cases h2
    | true =>
      refine ⟨out, rfl, ?_⟩
      rcases electSelf_trace cmp c rs env out hres _ h with
        ⟨_, _, h2⟩ | ⟨_, h2⟩ | ⟨_, h2⟩ | h2
      · cases h2
      · cases h2
      · cases h2
      · exact h2

/-- C8. Veto supremacy.  If the configured votes of self and of all members total
less than 10000, every targeted member whose reply is `ok` and is not a veto
votes at most its configured votes, and some targeted member replies `ok` with
`vote = -10000`, then the tally of `_electSelf` satisfies
`tally * 2 <= totalVotes()` and neither the election phase nor a whole
`_electSelf` in that environment invokes `assumePrimary`. -/
theorem veto_supremacy {G : Type} (me : Member G) (env : ElectEnv G)
    (highestKnownPrimary : Nat)
    (htotal : (env.rsElect.self.config.votes : Int)
      + (env.rsElect.members.map (fun m => (m.config.votes : Int))).sum < 10000)
    (hvotes : ∀ m ∈ env.rsElect.members, m.hbinfo.maybeUp = true →
      (env.electNet m.fullName).1 = true → (env.electNet m.fullName).2.vote ≠ -10000 →
      (env.electNet m.fullName).2.vote ≤ (m.config.votes : Int))
    (hveto : ∃ m ∈ env.rsElect.members, m.hbinfo.maybeUp = true ∧
      (env.electNet m.fullName).1 = true ∧ (env.electNet m.fullName).2.vote = -10000) :
    Consensus.tallyVotes (toInt (Consensus.yea env.rsElect me.id : Int))
        (multiCommand env.electNet (ReplSetImpl.getTargets env.rsElect).1) * 2
      ≤ Consensus.totalVotes env.rsElect ∧
    (∀ q, Event.assumePrimary q ∉ (Consensus.electPhase me env highestKnownPrimary).trace) ∧
    (∀ (cmp : G → G → Int) (c : Consensus) (rs : ReplSet G) (q : Nat),
      Event.assumePrimary q ∉ (Consensus._electSelf cmp c rs env).trace) := by
  have hown : (0 : Int) ≤ (env.rsElect.self.config.votes : Int) := Int.natCast_nonneg _
  have hall := votes_sum_nonneg env.rsElect.members
  have hself : toInt (env.rsElect.self.config.votes : Int)
      = (env.rsElect.self.config.votes : Int) := toInt_of_range _ (by omega) (by omega)
  have htot : Consensus.totalVotes env.rsElect
      = (env.rsElect.self.config.votes : Int)
        + (env.rsElect.members.map (fun m => (m.config.votes : Int))).sum := by
    rw [totalVotes_eq_sum]
    exact toInt_of_range _ (by omega) (by omega)
  have htally : ∀ id : Nat, Consensus.tallyVotes (toInt (Consensus.yea env.rsElect id : Int))
        (multiCommand env.electNet (ReplSetImpl.getTargets env.rsElect).1) + 10000
      ≤ Consensus.totalVotes env.rsElect := by
    intro id
    have hT : (ReplSetImpl.getTargets env.rsElect).1
        = (env.rsElect.members.filter (fun m => m.hbinfo.maybeUp)).map (fun m => m.fullName) := by
      unfold ReplSetImpl.getTargets ReplSetImpl._getTargets
      split <;> rfl
    rw [hT, tallyVotes_multiCommand, htot]
    have h1 := sum_add_le_of_veto
      (fun m : Member G => if (env.electNet m.fullName).1 then (env.electNet m.fullName).2.vote
        else 0)
      (fun m : Member G => (m.config.votes : Int))
      (env.rsElect.members.filter (fun m => m.hbinfo.maybeUp))
      (by
        intro m hm
        obtain ⟨hm1, hm2⟩ := List.mem_filter.mp hm
        have hnn : (0 : Int) ≤ (m.config.votes : Int) := Int.natCast_nonneg _
        by_cases hok : (env.electNet m.fullName).1 = true
        · simp only [hok, if_true]
          by_cases hv : (env.electNet m.fullName).2.vote = -10000
          · omega
          · exact hvotes m hm1 hm2 hok hv
        · simp only [hok, Bool.false_eq_true, if_false]
          exact hnn)
      (by
        obtain ⟨m, hm, hup, hok, hv⟩ := hveto
        refine ⟨m, List.mem_filter.mpr ⟨hm, hup⟩, ?_⟩
        have hnn : (0 : Int) ≤ (m.config.votes : Int) := Int.natCast_nonneg _
        simp only [hok, if_true, hv]
        omega)
    have h2 := votes_filter_le (fun m : Member G => m.hbinfo.maybeUp) env.rsElect.members
    unfold Consensus.yea
    rw [hself]
    omega
  have hphase : ∀ (me : Member G) (hkp q : Nat),
      Event.assumePrimary q ∉ (Consensus.electPhase me env hkp).trace := by
    intro me2 hkp q hq
    rw [assumePrimary_mem_electPhase_iff] at hq
    have := htally me2.id
    omega
  refine ⟨?_, hphase me highestKnownPrimary, ?_⟩
  · have := htally me.id
    omega
  · intro cmp c rs q hq
    obtain ⟨out, _, h2⟩ := assumePrimary_mem_electSelf cmp c rs env q hq
    exact hphase _ _ _ h2

/-- C8, at an example: three members with one vote each, member 2 vetoes and
member 3 grants; the tally is `1 - 10000 + 1`. -/
theorem veto_supremacy_witness :
    Consensus.totalVotes exampleVetoEnv.rsElect = 3 ∧
    Consensus.tallyVotes (toInt (Consensus.yea exampleVetoEnv.rsElect 1 : Int))
        (multiCommand exampleVetoEnv.electNet (ReplSetImpl.getTargets exampleVetoEnv.rsElect).1)
      = -9998 ∧
    (Consensus.tallyVotes (toInt (Consensus.yea exampleVetoEnv.rsElect 1 : Int))
        (multiCommand exampleVetoEnv.electNet
          (ReplSetImpl.getTargets exampleVetoEnv.rsElect).1) * 2
      ≤ Consensus.totalVotes exampleVetoEnv.rsElect ∧
    ∀ q, Event.assumePrimary q ∉
      (Consensus.electPhase (exampleMember 1 "a:27017" true 100 7) exampleVetoEnv 7).trace) :=
  ⟨by decide, by decide,
   (veto_supremacy (exampleMember 1 "a:27017" true 100 7) exampleVetoEnv 7 (by decide)
     (by decide) (by decide)).1,
   (veto_supremacy (exampleMember 1 "a:27017" true 100 7) exampleVetoEnv 7 (by decide)
     (by decide) (by decide)).2.1⟩

/-- A candidate that `shouldVeto` lets pass is a member of the config. -/
theorem shouldVeto_false_findById {G : Type} (theReplSet : ReplSet G) (id : Nat)
    (config : Int) (errmsg : String) (h : (shouldVeto theReplSet id config errmsg).1 = false) :
    ∃ hopeful, theReplSet.findById id = some hopeful := by
  cases hf : theReplSet.findById id with
  | some hopeful => exact ⟨hopeful, rfl⟩
  | none =>
    exfalso
    unfold shouldVeto at h
    simp [hf] at h

/-- The verdict of `shouldVeto` does not depend on the `errmsg` passed in. -/
theorem shouldVeto_fst_errmsg {G : Type} (theReplSet : ReplSet G) (id : Nat)
    (config : Int) (errmsg errmsg2 : String) :
    (shouldVeto theReplSet id config errmsg).1 = (shouldVeto theReplSet id config errmsg2).1 := by
  unfold shouldVeto
  cases theReplSet.findById id with
  | none => rfl
  | some hopeful =>
    simp only
    split
    · rfl
    · split
      · rfl
      · cases theReplSet.getPrimary with
        | some p => rfl
        | none =>
          simp only
          split
          · rfl
          · split <;> rfl

/-- C11. For an elect request that names the set of the responder and whose
config version is not newer than the responder's, a veto of `shouldVeto` makes
`electCmdReceived` reply `vote = -10000`, and no call is made on the epoch
store. -/
theorem electCmdReceived_veto {G : Type} (rs : ReplSet G) (voteYesUninit : Bool)
    (cmd : ElectCmd G) (hset : cmd.set = rs.name) (hver : ¬ rs.version < cmd.cfgver)
    (hveto : (shouldVeto rs (toUnsigned cmd.whoid) cmd.cfgver "").1 = true) :
    (Consensus.electCmdReceived rs voteYesUninit cmd).reply
      = some { vote := -10000, round := cmd.round } ∧
    (Consensus.electCmdReceived rs voteYesUninit cmd).trace = [] := by
  unfold Consensus.electCmdReceived
  simp [hset, hver, hveto]

/-- C11, at an example: member 2 is asked to elect an id that is not in its
config. -/
theorem electCmdReceived_veto_witness :
    (Consensus.electCmdReceived exampleResponder true
        { exampleElectCmd 8 with whoid := 5 }).reply
      = some { vote := -10000, round := 9 } ∧
    (Consensus.electCmdReceived exampleResponder true
        { exampleElectCmd 8 with whoid := 5 }).trace = [] :=
  electCmdReceived_veto exampleResponder true { exampleElectCmd 8 with whoid := 5 }
    (by decide) (by decide) (by decide)

/-- C12. An elect request that names another set, or whose config version is
strictly greater than the responder's, is answered `vote = 0` by
`electCmdReceived`, whatever the state of the responder and the candidate id,
and no call is made on the epoch store. -/
theorem electCmdReceived_stale {G : Type} (rs : ReplSet G) (voteYesUninit : Bool)
    (cmd : ElectCmd G) (h : cmd.set ≠ rs.name ∨ rs.version < cmd.cfgver) :
    (Consensus.electCmdReceived rs voteYesUninit cmd).reply
      = some { vote := 0, round := cmd.round } ∧
    (Consensus.electCmdReceived rs voteYesUninit cmd).trace = [] := by
  unfold Consensus.electCmdReceived
  by_cases hset : cmd.set = rs.name
  · have hver : rs.version < cmd.cfgver := by
      rcases h with h | h
      · exact absurd hset h
      · exact h
    simp [hset, hver]
  · simp [hset]

/-- C12, at an example: member 2 of `rs0` at config version 1 gets a request of
an unknown id 5 at config version 2, which `shouldVeto` would veto. -/
theorem electCmdReceived_stale_witness :
    (shouldVeto exampleResponder 5 2 "").1 = true ∧
    (Consensus.electCmdReceived exampleResponder true
        { exampleElectCmd 8 with whoid := 5, cfgver := 2 }).reply
      = some { vote := 0, round := 9 } ∧
    (Consensus.electCmdReceived exampleResponder true
        { exampleElectCmd 8 with whoid := 5, cfgver := 2 }).trace = [] :=
  ⟨by decide,
   electCmdReceived_stale exampleResponder true
     { exampleElectCmd 8 with whoid := 5, cfgver := 2 } (Or.inr (by decide))⟩

/-- C13, the counterexample: a responder configured with 3000000000 votes answers
a request in the older protocol, which names its set, is not from a newer
config and is not vetoed, with `vote = -1294967296`, the `int` that its votes
convert to, and not with its configured votes. -/
theorem electCmdReceived_legacy_wraps :
    exampleBigVoteCmd.set = exampleBigVoteResponder.name ∧
    ¬ exampleBigVoteResponder.version < exampleBigVoteCmd.cfgver ∧
    (shouldVeto exampleBigVoteResponder (toUnsigned exampleBigVoteCmd.whoid)
      exampleBigVoteCmd.cfgver "").1 = false ∧
    exampleBigVoteCmd.primaryToUse = none ∧
    exampleBigVoteResponder.self.config.votes = 3000000000 ∧
    (Consensus.electCmdReceived exampleBigVoteResponder true exampleBigVoteCmd).reply
      = some { vote := -1294967296, round := 9 } ∧
    (Consensus.electCmdReceived exampleBigVoteResponder true exampleBigVoteCmd).reply
      ≠ some { vote := (exampleBigVoteResponder.self.config.votes : Int), round := 9 } := by
  decide

/-- C13, amended. An elect request without `primaryToUse` that names the set of
the responder, is not from a newer config and is not vetoed by `shouldVeto` is
answered with the configured votes of the responder converted to `int`, and no
call is made on the epoch store.  When the configured votes are below 2^31 the
reply carries the configured votes themselves. -/
theorem electCmdReceived_legacy {G : Type} (rs : ReplSet G) (voteYesUninit : Bool)
    (cmd : ElectCmd G) (hset : cmd.set = rs.name) (hver : ¬ rs.version < cmd.cfgver)
    (hpass : (shouldVeto rs (toUnsigned cmd.whoid) cmd.cfgver "").1 = false)
    (hlegacy : cmd.primaryToUse = none) :
    (Consensus.electCmdReceived rs voteYesUninit cmd).reply
      = some { vote := toInt (rs.self.config.votes : Int), round := cmd.round } ∧
    (Consensus.electCmdReceived rs voteYesUninit cmd).trace = [] ∧
    (rs.self.config.votes < 2147483648 →
      (Consensus.electCmdReceived rs voteYesUninit cmd).reply
        = some { vote := (rs.self.config.votes : Int), round := cmd.round }) := by
  obtain ⟨hopeful, hf⟩ := shouldVeto_false_findById rs _ _ _ hpass
  have h1 : (Consensus.electCmdReceived rs voteYesUninit cmd).reply
      = some { vote := toInt (rs.self.config.votes : Int), round := cmd.round } := by
    unfold Consensus.electCmdReceived
    simp [hset, hver, hpass, hlegacy, hf, Consensus.yea]
  refine ⟨h1, ?_, ?_⟩
  · unfold Consensus.electCmdReceived
    simp [hset, hver, hpass, hlegacy, hf]
  · intro hlt
    have h0 : (0 : Int) ≤ (rs.self.config.votes : Int) := Int.natCast_nonneg _
    rw [h1, toInt_of_range _ (by omega) (by omega)]

/-- C13, amended, at an example: member 2 (one vote) answers a request of member 1
in the older protocol with `vote = 1`, whatever the unassigned `voteYes` would
read. -/
theorem electCmdReceived_legacy_witness :
    (Consensus.electCmdReceived exampleResponder false
        { exampleElectCmd 8 with primaryToUse := none }).trace = [] ∧
    (Consensus.electCmdReceived exampleResponder false
        { exampleElectCmd 8 with primaryToUse := none }).reply
      = some { vote := 1, round := 9 } :=
  ⟨(electCmdReceived_legacy exampleResponder false
      { exampleElectCmd 8 with primaryToUse := none }
      (by decide) (by decide) (by decide) rfl).2.1,
   (electCmdReceived_legacy exampleResponder false
      { exampleElectCmd 8 with primaryToUse := none }
      (by decide) (by decide) (by decide) rfl).2.2 (by decide)⟩

/-- C14. The reason `shouldVeto` reports is that of the first condition that
holds, in the order: unknown candidate, stale config, local node primary, other
primary known, lower priority, not electable; whatever holds further down the
order has no influence.  An id without a member gives the unknown-candidate
reason, and the priority reason names the most electable member.  At the
example, member 3 vetoes member 1 because of member 2, and an unknown id with a
stale config version gets the unknown-candidate reason. -/
theorem shouldVeto_reason {G : Type} (theReplSet : ReplSet G) (id : Nat) (cfgver : Int)
    (errmsg : String) :
    (theReplSet.findById id = none →
      shouldVeto theReplSet id cfgver errmsg
        = (true, "replSet couldn't find member with id " ++ toString id)) ∧
    (∀ hopeful, theReplSet.findById id = some hopeful →
      (theReplSet.version > cfgver →
        shouldVeto theReplSet id cfgver errmsg
          = (true, "replSet member " ++ toString id ++ " is not yet aware its cfg version "
              ++ toString cfgver ++ " is stale")) ∧
      (¬ theReplSet.version > cfgver → theReplSet.isPrimary = true →
        shouldVeto theReplSet id cfgver errmsg
          = (true, "I am already primary, " ++ hopeful.fullName
              ++ " can try again once I've stepped down")) ∧
      (¬ theReplSet.version > cfgver → theReplSet.isPrimary = false →
        ∀ p, theReplSet.getPrimary = some p →
        shouldVeto theReplSet id cfgver errmsg
          = (true, hopeful.fullName ++ " is trying to elect itself but " ++ p.fullName
              ++ " is already primary and more up-to-date")) ∧
      (¬ theReplSet.version > cfgver → theReplSet.isPrimary = false →
        theReplSet.getPrimary = none →
        ∀ hp, theReplSet.getMostElectable = some hp →
        hp.config.priority > hopeful.config.priority →
        shouldVeto theReplSet id cfgver errmsg
          = (true, hopeful.fullName ++ " has lower priority than " ++ hp.fullName)) ∧
      (¬ theReplSet.version > cfgver → theReplSet.isPrimary = false →
        theReplSet.getPrimary = none →
        (∀ hp, theReplSet.getMostElectable = some hp →
          ¬ hp.config.priority > hopeful.config.priority) →
        theReplSet.isElectable id = false →
        shouldVeto theReplSet id cfgver errmsg
          = (true, "I don't think " ++ hopeful.fullName ++ " is electable"))) ∧
    shouldVeto examplePriorityResponder 1 1 ""
      = (true, "a:27017 has lower priority than b:27017") ∧
    shouldVeto examplePriorityResponder 5 0 ""
      = (true, "replSet couldn't find member with id 5") := by
  refine ⟨?_, ?_, by decide, by decide⟩
  · intro hf
    unfold shouldVeto
    simp [hf]
  · intro hopeful hf
    refine ⟨?_, ?_, ?_, ?_, ?_⟩
    · intro hv
      unfold shouldVeto
      simp [hf, hv]
    · intro hv hp
      unfold shouldVeto
      simp [hf, hv, hp]
    · intro hv hp p hprim
      unfold shouldVeto
      simp [hf, hv, hp, hprim]
    · intro hv hp hprim m hme hpr
      unfold shouldVeto
      simp [hf, hv, hp, hprim, hme, hpr]
    · intro hv hp hprim hme he
      unfold shouldVeto
      cases hm : theReplSet.getMostElectable with
      | none => simp [hf, hv, hp, hprim, hm, he]
      | some m =>
        have := hme m hm
        simp [hf, hv, hp, hprim, hm, this, he]

/-- C15. In the reply to a fresh query that passes `check` and names the set of
the responder, `veto` is the verdict of `shouldVeto(id, cfgver, errmsg)`, the
field `errmsg` is present exactly when `veto` is true and then holds the reason
of `shouldVeto`; the electability test that follows `shouldVeto` never fires,
because a candidate that `shouldVeto` lets pass is electable. -/
theorem fresh_reply_veto {G : Type} (cmp : G → G → Int) (theReplSet : ReplSet G)
    (cmdObj : FreshCmd G) (errmsg : String) (hset : cmdObj.set = theReplSet.name) :
    ∃ r, CmdReplSetFresh.run cmp theReplSet none cmdObj errmsg = .done r ∧
      r.veto = (shouldVeto theReplSet (toUnsigned cmdObj.id) cmdObj.cfgver errmsg).1 ∧
      (r.errmsg.isSome = true ↔ r.veto = true) ∧
      (r.veto = true →
        r.errmsg = some (shouldVeto theReplSet (toUnsigned cmdObj.id) cmdObj.cfgver errmsg).2) ∧
      ¬ ((shouldVeto theReplSet (toUnsigned cmdObj.id) cmdObj.cfgver errmsg).1 = false ∧
          theReplSet.isElectable (toUnsigned cmdObj.id) = false) := by
  refine ⟨_, fresh_run_eq cmp theReplSet cmdObj errmsg hset, rfl, ?_, ?_, ?_⟩
  · cases (shouldVeto theReplSet (toUnsigned cmdObj.id) cmdObj.cfgver errmsg).1 <;> simp
  · intro h
    simp only at h
    simp [h]
  · rintro ⟨h1, h2⟩
    have := shouldVeto_false_isElectable theReplSet _ _ _ h1
    rw [h2] at this
    exact absurd this (by simp)

/-- C15, at an example: member 2 answers the fresh query of an id that is not in
its config with a veto and the reason of `shouldVeto`. -/
theorem fresh_reply_veto_witness :
    CmdReplSetFresh.run natCmp exampleResponder none { exampleFreshCmd 100 with id := 5 } ""
      = .done { GTID := 100, fresher := false, veto := true,
                errmsg := some "replSet couldn't find member with id 5", hkp := some 7 } ∧
    ∃ r, CmdReplSetFresh.run natCmp exampleResponder none
          { exampleFreshCmd 100 with id := 5 } "" = .done r ∧
      r.veto = (shouldVeto exampleResponder 5 1 "").1 :=
  ⟨by decide,
   (fresh_reply_veto natCmp exampleResponder { exampleFreshCmd 100 with id := 5 } "" rfl).imp
     (fun _ h => ⟨h.1, h.2.1⟩)⟩

/-- When the loop of `weAreFreshest` returns true, the closing `verify` held. -/
theorem weAreFreshestLoop_true_live {G : Type} (cmp : G → G → Int) (ourGTID liveNow : G)
    (L : List (Target (FreshResult G))) (st out : FreshOut)
    (h : Consensus.weAreFreshestLoop cmp ourGTID liveNow L st = .ok (true, out)) :
    cmp ourGTID liveNow ≤ 0 := by
  induction L generalizing st with
  | nil =>
    unfold Consensus.weAreFreshestLoop at h
    by_contra hc
    simp [hc] at h
  | cons i rest ih =>
    unfold Consensus.weAreFreshestLoop at h
    by_cases hi : i.ok = true
    · simp only [hi, if_true] at h
      by_cases hf : i.result.fresher = true
      · simp [hf] at h
      · simp only [hf, Bool.false_eq_true, if_false] at h
        by_cases hc : cmp i.result.GTID ourGTID ≤ 0
        · simp only [hc, not_true_eq_false, if_false] at h
          by_cases hv : i.result.veto = true
          · simp [hv] at h
          · simp only [hv, Bool.false_eq_true, if_false] at h
            exact ih _ h
        · simp [hc] at h
    · simp only [hi, Bool.false_eq_true, if_false] at h
      exact ih _ h

/-- The loop of `weAreFreshest` in closed form, on a list in which no `ok` reply
has `fresher` or `veto` set or a position greater than the local one, and with
a live state that did not move back: it returns true; `allUp` stays true when
every reply is `ok`, `nTies` grows by the number of `ok` replies at the local
position, and the highest known primary is the maximum of the initial one and
the `hkp` of the `ok` replies that carry one. -/
theorem weAreFreshestLoop_eq {G : Type} (cmp : G → G → Int) (ourGTID liveNow : G)
    (L : List (Target (FreshResult G))) (st : FreshOut)
    (hgood : ∀ t ∈ L, t.ok = true →
      t.result.fresher = false ∧ t.result.veto = false ∧ cmp t.result.GTID ourGTID ≤ 0)
    (hlive : cmp ourGTID liveNow ≤ 0) :
    Consensus.weAreFreshestLoop cmp ourGTID liveNow L st =
      .ok (true,
        { allUp := st.allUp && L.all (fun t => t.ok)
          nTies := st.nTies +
            ((L.filter (fun t => t.ok && decide (cmp t.result.GTID ourGTID = 0))).length : Int)
          highestKnownPrimary :=
            (L.filterMap (fun t =>
              if t.ok then t.result.hkp.map (fun k => k % UINT64_MOD) else none)).foldl max
              st.highestKnownPrimary }) := by
  induction L generalizing st with
  | nil =>
    unfold Consensus.weAreFreshestLoop
    simp [hlive]
  | cons i rest ih =>
    have hrest : ∀ t ∈ rest, t.ok = true →
        t.result.fresher = false ∧ t.result.veto = false ∧ cmp t.result.GTID ourGTID ≤ 0 :=
      fun t ht => hgood t (List.mem_cons_of_mem _ ht)
    unfold Consensus.weAreFreshestLoop
    by_cases hi : i.ok = true
    · obtain ⟨hf, hv, hc⟩ := hgood i (List.mem_cons_self _ _) hi
      simp only [hi, if_true, hf, Bool.false_eq_true, if_false, hc, not_true_eq_false, hv]
      rw [ih _ hrest]
      congr 2
      by_cases htie : cmp i.result.GTID ourGTID = 0
      · cases hk : i.result.hkp with
        | none => simp [htie, hi, hk]; ring
        | some k =>
          by_cases hgt : k % UINT64_MOD > st.highestKnownPrimary
          · have hmax : max st.highestKnownPrimary (k % UINT64_MOD) = k % UINT64_MOD :=
              max_eq_right (le_of_lt hgt)
            simp [htie, hi, hk, hgt, hmax]; ring
          · have hmax : max st.highestKnownPrimary (k % UINT64_MOD) = st.highestKnownPrimary :=
              max_eq_left (not_lt.mp hgt)
            simp [htie, hi, hk, hgt, hmax]; ring
      · cases hk : i.result.hkp with
        | none => simp [htie, hi, hk]
        | some k =>
          by_cases hgt : k % UINT64_MOD > st.highestKnownPrimary
          · have hmax : max st.highestKnownPrimary (k % UINT64_MOD) = k % UINT64_MOD :=
              max_eq_right (le_of_lt hgt)
            simp [htie, hi, hk, hgt, hmax]
          · have hmax : max st.highestKnownPrimary (k % UINT64_MOD) = st.highestKnownPrimary :=
              max_eq_left (not_lt.mp hgt)
            simp [htie, hi, hk, hgt, hmax]
    · simp only [hi, Bool.false_eq_true, if_false]
      rw [ih _ hrest]
      simp [hi]

/-- What `weAreFreshest` returns with `true`, in closed form over the targets as
the fan-out filled them in. -/
theorem weAreFreshest_out {G : Type} (cmp : G → G → Int) (rs : ReplSet G)
    (net : String → Bool × FreshResult G) (liveNow : G) (out : FreshOut)
    (h : (Consensus.weAreFreshest cmp rs net liveNow).result = .ok (true, out)) :
    out =
      { allUp := (multiCommand net (ReplSetImpl.getTargets rs).1).all (fun t => t.ok)
        nTies :=
          (((multiCommand net (ReplSetImpl.getTargets rs).1).filter
            (fun t => t.ok && decide (cmp t.result.GTID rs.getLiveState = 0))).length : Int)
        highestKnownPrimary :=
          ((multiCommand net (ReplSetImpl.getTargets rs).1).filterMap (fun t =>
            if t.ok then t.result.hkp.map (fun k => k % UINT64_MOD) else none)).foldl max
            rs.getHighestKnownPrimary } := by
  have hloop := weAreFreshest_true cmp rs net liveNow out h
  have hgood := weAreFreshestLoop_true cmp _ _ _ _ out hloop
  have hlive := weAreFreshestLoop_true_live cmp _ _ _ _ out hloop
  rw [weAreFreshestLoop_eq cmp _ _ _ _ hgood hlive] at hloop
  simp only [Except.ok.injEq, Prod.mk.injEq, true_and] at hloop
  rw [← hloop]
  simp

/-- The targets of `getTargets`: the hosts of the members that are maybe-up. -/
theorem getTargets_fst {G : Type} (rs : ReplSet G) :
    (ReplSetImpl.getTargets rs).1
      = (rs.members.filter (fun m => m.hbinfo.maybeUp)).map (fun m => m.fullName) := by
  unfold ReplSetImpl.getTargets ReplSetImpl._getTargets
  split <;> rfl

/-- A fold of `max` is the initial value or an element of the list. -/
theorem foldl_max_mem (l : List Nat) (a : Nat) : l.foldl max a = a ∨ l.foldl max a ∈ l := by
  induction l generalizing a with
  | nil => simp
  | cons x rest ih =>
    simp only [List.foldl_cons, List.mem_cons]
    rcases ih (max a x) with h | h
    · rw [h]
      rcases le_total a x with hax | hax
      · right; left; exact max_eq_right hax
      · left; exact max_eq_left hax
    · right; right; exact h

/-- C16. Whenever `weAreFreshest` returns true, the `nTies` it outputs is the
number of `ok` replies whose position compares equal (`GTID::cmp(...) == 0`) to
the live position sampled at the start; with a comparator that is a total
order, that is the number of `ok` replies whose position is that position. -/
theorem tie_count {G : Type} [DecidableEq G] (cmp : G → G → Int) (rs : ReplSet G)
    (net : String → Bool × FreshResult G) (liveNow : G) (out : FreshOut)
    (h : (Consensus.weAreFreshest cmp rs net liveNow).result = .ok (true, out)) :
    out.nTies =
      (((multiCommand net (ReplSetImpl.getTargets rs).1).filter
        (fun t => t.ok && decide (cmp t.result.GTID rs.getLiveState = 0))).length : Int) ∧
    (IsTotalOrderCmp cmp →
      out.nTies =
        (((multiCommand net (ReplSetImpl.getTargets rs).1).filter
          (fun t => t.ok && decide (t.result.GTID = rs.getLiveState))).length : Int)) := by
  have hout := weAreFreshest_out cmp rs net liveNow out h
  have h1 : out.nTies =
      (((multiCommand net (ReplSetImpl.getTargets rs).1).filter
        (fun t => t.ok && decide (cmp t.result.GTID rs.getLiveState = 0))).length : Int) := by
    rw [hout]
  refine ⟨h1, ?_⟩
  intro hcmp
  rw [h1]
  have hfun : (fun t : Target (FreshResult G) =>
        t.ok && decide (cmp t.result.GTID rs.getLiveState = 0))
      = (fun t : Target (FreshResult G) => t.ok && decide (t.result.GTID = rs.getLiveState)) := by
    funext t
    congr 1
    exact decide_eq_decide.mpr (hcmp.eq_iff _ _)
  rw [hfun]

/-- C16, at an example: members 2 and 3 answer from position 100 to member 1 at
position 100, two ties. -/
theorem tie_count_witness :
    (Consensus.weAreFreshest natCmp (exampleCandidate 100 7)
        (exampleFreshNet exampleGrantReply) 100).result
      = .ok (true, { allUp := true, nTies := 2, highestKnownPrimary := 7 }) ∧
    (2 : Int) =
      (((multiCommand (exampleFreshNet exampleGrantReply)
          (ReplSetImpl.getTargets (exampleCandidate 100 7)).1).filter
        (fun t => t.ok && decide (natCmp t.result.GTID
          (exampleCandidate 100 7).getLiveState = 0))).length : Int) :=
  ⟨by rfl,
   (tie_count natCmp (exampleCandidate 100 7) (exampleFreshNet exampleGrantReply) 100
      { allUp := true, nTies := 2, highestKnownPrimary := 7 } (by rfl)).1⟩

/-- C17. Whenever `weAreFreshest` returns true, the `highestKnownPrimary` it
outputs is the maximum of the local highest known primary and the `hkp` values
(as `uint64_t`) of the `ok` replies that carry the field: it is the fold of
`max` over them, it is at least the local value and each of them, and it is
one of them.  Replies that are not `ok` or lack the field do not enter. -/
theorem observed_hkp {G : Type} (cmp : G → G → Int) (rs : ReplSet G)
    (net : String → Bool × FreshResult G) (liveNow : G) (out : FreshOut)
    (h : (Consensus.weAreFreshest cmp rs net liveNow).result = .ok (true, out)) :
    out.highestKnownPrimary =
      ((multiCommand net (ReplSetImpl.getTargets rs).1).filterMap (fun t =>
        if t.ok then t.result.hkp.map (fun k => k % UINT64_MOD) else none)).foldl max
        rs.getHighestKnownPrimary ∧
    rs.getHighestKnownPrimary ≤ out.highestKnownPrimary ∧
    (∀ t ∈ multiCommand net (ReplSetImpl.getTargets rs).1, t.ok = true →
      ∀ k, t.result.hkp = some k → k % UINT64_MOD ≤ out.highestKnownPrimary) ∧
    (out.highestKnownPrimary = rs.getHighestKnownPrimary ∨
      ∃ t ∈ multiCommand net (ReplSetImpl.getTargets rs).1, t.ok = true ∧
        ∃ k, t.result.hkp = some k ∧ out.highestKnownPrimary = k % UINT64_MOD) := by
  have hout := weAreFreshest_out cmp rs net liveNow out h
  have hloop := weAreFreshest_true cmp rs net liveNow out h
  obtain ⟨hb1, hb2⟩ := weAreFreshestLoop_hkp cmp _ _ _ _ out hloop
  have h1 : out.highestKnownPrimary =
      ((multiCommand net (ReplSetImpl.getTargets rs).1).filterMap (fun t =>
        if t.ok then t.result.hkp.map (fun k => k % UINT64_MOD) else none)).foldl max
        rs.getHighestKnownPrimary := by
    rw [hout]
  refine ⟨h1, hb1, hb2, ?_⟩
  rcases foldl_max_mem
      ((multiCommand net (ReplSetImpl.getTargets rs).1).filterMap (fun t =>
        if t.ok then t.result.hkp.map (fun k => k % UINT64_MOD) else none))
      rs.getHighestKnownPrimary with hm | hm
  · left; rw [h1, hm]
  · right
    rw [← h1] at hm
    obtain ⟨t, ht, hval⟩ := List.mem_filterMap.mp hm
    by_cases hok : t.ok = true
    · simp only [hok, if_true, Option.map_eq_some'] at hval
      obtain ⟨k, hk, hk2⟩ := hval
      exact ⟨t, ht, hok, k, hk, hk2.symm⟩
    · simp [hok] at hval

/-- C17, at an example: member 1 with local highest known primary 7 hears
`hkp = 2^64 - 1` from members 2 and 3. -/
theorem observed_hkp_witness :
    (Consensus.weAreFreshest natCmp (exampleCandidate 101 7)
        (exampleFreshNet exampleMaxHkpReply) 101).result
      = .ok (true, { allUp := true, nTies := 0, highestKnownPrimary := 18446744073709551615 }) ∧
    (18446744073709551615 : Nat) =
      ((multiCommand (exampleFreshNet exampleMaxHkpReply)
          (ReplSetImpl.getTargets (exampleCandidate 101 7)).1).filterMap (fun t =>
        if t.ok then t.result.hkp.map (fun k => k % UINT64_MOD) else none)).foldl max
        (exampleCandidate 101 7).getHighestKnownPrimary :=
  ⟨by rfl,
   (observed_hkp natCmp (exampleCandidate 101 7) (exampleFreshNet exampleMaxHkpReply) 101
      { allUp := true, nTies := 0, highestKnownPrimary := 18446744073709551615 } (by rfl)).1⟩

/-- C18, as stated, fails in both directions.  With member 3 (one vote) marked
down by the heartbeat and therefore not asked, `weAreFreshest` returns true
with `allUp = true` although a vote-carrying member did not reply; with member
3 up, carrying no vote and not answering, it returns `allUp = false` although
every vote-carrying member replied `ok`. -/
theorem allUp_not_about_votes :
    (Consensus.weAreFreshest natCmp exampleDownCandidate exampleDownNet 100).result
      = .ok (true, { allUp := true, nTies := 1, highestKnownPrimary := 7 }) ∧
    ¬ (∀ m ∈ exampleDownCandidate.members, 0 < m.config.votes →
        ∃ t ∈ multiCommand exampleDownNet (ReplSetImpl.getTargets exampleDownCandidate).1,
          t.toHost = m.fullName ∧ t.ok = true) ∧
    (Consensus.weAreFreshest natCmp exampleNoVoteCandidate exampleDownNet 100).result
      = .ok (true, { allUp := false, nTies := 1, highestKnownPrimary := 7 }) ∧
    (∀ m ∈ exampleNoVoteCandidate.members, 0 < m.config.votes →
        ∃ t ∈ multiCommand exampleDownNet (ReplSetImpl.getTargets exampleNoVoteCandidate).1,
          t.toHost = m.fullName ∧ t.ok = true) := by
  refine ⟨by rfl, by decide, by rfl, by decide⟩

/-- C18, amended.  Whenever `weAreFreshest` returns true, `allUp` is true exactly
when every target of the fresh query replied `ok`; the targets are the members
whose heartbeat state is maybe-up, whatever their votes, so `allUp` is true
exactly when every maybe-up member replied `ok`. -/
theorem allUp_iff {G : Type} (cmp : G → G → Int) (rs : ReplSet G)
    (net : String → Bool × FreshResult G) (liveNow : G) (out : FreshOut)
    (h : (Consensus.weAreFreshest cmp rs net liveNow).result = .ok (true, out)) :
    (out.allUp = true ↔
      ∀ t ∈ multiCommand net (ReplSetImpl.getTargets rs).1, t.ok = true) ∧
    (out.allUp = true ↔
      ∀ m ∈ rs.members, m.hbinfo.maybeUp = true → (net m.fullName).1 = true) := by
  have hout := weAreFreshest_out cmp rs net liveNow out h
  have h1 : out.allUp = (multiCommand net (ReplSetImpl.getTargets rs).1).all (fun t => t.ok) := by
    rw [hout]
  refine ⟨?_, ?_⟩
  · rw [h1]
    simp
  · rw [h1, getTargets_fst]
    unfold multiCommand
    simp only [List.all_eq_true, List.mem_map, List.mem_filter]
    constructor
    · intro hall m hm hup
      exact hall _ ⟨m.fullName, ⟨m, ⟨hm, hup⟩, rfl⟩, rfl⟩
    · rintro hall t ⟨host, ⟨m, ⟨hm, hup⟩, rfl⟩, rfl⟩
      exact hall m hm hup

/-- C18, amended, at an example: member 3 is marked down and is not asked, member
2 replies, and `allUp` is true. -/
theorem allUp_iff_witness :
    (Consensus.weAreFreshest natCmp exampleDownCandidate exampleDownNet 100).result
      = .ok (true, { allUp := true, nTies := 1, highestKnownPrimary := 7 }) ∧
    ((true : Bool) = true ↔
      ∀ m ∈ exampleDownCandidate.members, m.hbinfo.maybeUp = true →
        (exampleDownNet m.fullName).1 = true) :=
  ⟨by rfl,
   (allUp_iff natCmp exampleDownCandidate exampleDownNet 100
      { allUp := true, nTies := 1, highestKnownPrimary := 7 } (by rfl)).2⟩

/-- Filtering first does not change a `filterMap` that drops what the filter
drops. -/
theorem filterMap_filter_of_none {α β : Type} (p : α → Bool) (f : α → Option β)
    (l : List α) (h : ∀ a, p a = false → f a = none) :
    (l.filter p).filterMap f = l.filterMap f := by
  induction l with
  | nil => rfl
  | cons a rest ih =>
    by_cases hp : p a = true
    · rw [List.filter_cons_of_pos hp, List.filterMap_cons, List.filterMap_cons, ih]
    · rw [List.filter_cons_of_neg hp, List.filterMap_cons, ih]
      have := h a (by simpa using hp)
      rw [this]

/-- C19. Missing replies do not fail the freshness phase.  Take any list of
replies in which no `ok` reply has `fresher` or `veto` set or a position greater
than the local one, and a live state that has not moved back when the closing
`verify` reads it.  Then the loop of `weAreFreshest` returns true, however many
replies are not `ok`; the replies that are not `ok` can be removed without
changing `nTies` or the highest known primary, they only make `allUp` false;
when no reply is `ok`, `nTies` is 0 and the highest known primary is the local
one; on the empty list `allUp` is true.  `weAreFreshest` itself, called without
the set lock held, returns what the loop returns on the replies of its
fan-out. -/
theorem missing_replies_do_not_fail {G : Type} (cmp : G → G → Int) (ourGTID liveNow : G)
    (L : List (Target (FreshResult G))) (localHkp : Nat)
    (hgood : ∀ t ∈ L, t.ok = true →
      t.result.fresher = false ∧ t.result.veto = false ∧ cmp t.result.GTID ourGTID ≤ 0)
    (hlive : cmp ourGTID liveNow ≤ 0) :
    (∃ out,
      Consensus.weAreFreshestLoop cmp ourGTID liveNow L
          { allUp := true, nTies := 0, highestKnownPrimary := localHkp } = .ok (true, out) ∧
      Consensus.weAreFreshestLoop cmp ourGTID liveNow (L.filter (fun t => t.ok))
          { allUp := true, nTies := 0, highestKnownPrimary := localHkp }
        = .ok (true, { out with allUp := true }) ∧
      (out.allUp = true ↔ ∀ t ∈ L, t.ok = true) ∧
      ((∀ t ∈ L, t.ok = false) → out.nTies = 0 ∧ out.highestKnownPrimary = localHkp)) ∧
    Consensus.weAreFreshestLoop cmp ourGTID liveNow []
        { allUp := true, nTies := 0, highestKnownPrimary := localHkp }
      = .ok (true, { allUp := true, nTies := 0, highestKnownPrimary := localHkp }) ∧
    (∀ (rs : ReplSet G) (net : String → Bool × FreshResult G),
      rs.lockedByMe = false → rs.getLiveState = ourGTID →
      rs.getHighestKnownPrimary = localHkp →
      multiCommand net (ReplSetImpl.getTargets rs).1 = L →
      (Consensus.weAreFreshest cmp rs net liveNow).result
        = Consensus.weAreFreshestLoop cmp ourGTID liveNow L
            { allUp := true, nTies := 0, highestKnownPrimary := localHkp }) := by
  have hfilter : ∀ t ∈ L.filter (fun t => t.ok), t.ok = true →
      t.result.fresher = false ∧ t.result.veto = false ∧ cmp t.result.GTID ourGTID ≤ 0 :=
    fun t ht => hgood t (List.mem_filter.mp ht).1
  refine ⟨⟨_, weAreFreshestLoop_eq cmp ourGTID liveNow L _ hgood hlive, ?_, ?_, ?_⟩, ?_, ?_⟩
  · rw [weAreFreshestLoop_eq cmp ourGTID liveNow _ _ hfilter hlive]
    have hf1 : (L.filter (fun t => t.ok)).filter
          (fun t => t.ok && decide (cmp t.result.GTID ourGTID = 0))
        = L.filter (fun t => t.ok && decide (cmp t.result.GTID ourGTID = 0)) := by
      rw [List.filter_filter]
      congr 1
      funext t
      cases t.ok <;> simp
    have hf2 : (L.filter (fun t => t.ok)).filterMap (fun t =>
          if t.ok then t.result.hkp.map (fun k => k % UINT64_MOD) else none)
        = L.filterMap (fun t =>
          if t.ok then t.result.hkp.map (fun k => k % UINT64_MOD) else none) :=
      filterMap_filter_of_none _ _ L (fun t ht => by simp [ht])
    have hall : (L.filter (fun t => t.ok)).all (fun t => t.ok) = true := by
      simp [List.all_eq_true]
    simp only [hf1, hf2, hall, Bool.and_self]
  · simp
  · intro hnone
    have h1 : L.filter (fun t => t.ok && decide (cmp t.result.GTID ourGTID = 0)) = [] := by
      rw [List.filter_eq_nil_iff]
      intro t ht
      simp [hnone t ht]
    have h2 : L.filterMap (fun t =>
          if t.ok then t.result.hkp.map (fun k => k % UINT64_MOD) else none) = [] := by
      rw [List.filterMap_eq_nil_iff]
      intro t ht
      simp [hnone t ht]
    simp [h1, h2]
  · unfold Consensus.weAreFreshestLoop
    simp [hlive]
  · intro rs net hlock hour hhkp hL
    unfold Consensus.weAreFreshest Consensus.multiCommand
    simp [hlock, hour, hhkp, hL]

/-- C19, at an example: neither of the two targets answers; the phase returns
true with `allUp = false`, no tie and the local highest known primary. -/
theorem missing_replies_do_not_fail_witness :
    Consensus.weAreFreshestLoop natCmp 100 100
        (multiCommand (fun _ => (false, exampleGrantReply)) ["b:27017", "c:27017"])
        { allUp := true, nTies := 0, highestKnownPrimary := 7 }
      = .ok (true, { allUp := false, nTies := 0, highestKnownPrimary := 7 }) ∧
    ∃ out, Consensus.weAreFreshestLoop natCmp 100 100
        (multiCommand (fun _ => (false, exampleGrantReply)) ["b:27017", "c:27017"])
        { allUp := true, nTies := 0, highestKnownPrimary := 7 } = .ok (true, out) :=
  ⟨by rfl,
   (missing_replies_do_not_fail natCmp 100 100
      (multiCommand (fun _ => (false, exampleGrantReply)) ["b:27017", "c:27017"]) 7
      (by decide) (by decide)).1.imp (fun _ h => h.1)⟩

/-- The election phase does not raise retry-after-sleep. -/
theorem electPhase_ne_retry {G : Type} (me : Member G) (env : ElectEnv G)
    (highestKnownPrimary : Nat) :
    (Consensus.electPhase me env highestKnownPrimary).result ≠ .error Exn.retryAfterSleep := by
  unfold Consensus.electPhase Consensus.multiCommand
  by_cases hl : env.rsElect.lockedByMe = true
  · simp [hl]
  · simp [hl]

/-- C20, as stated, fails for a lowest id other than 0.  Member 1, the lowest id
of the set of members 1, 2 and 3, ties with both others and did not sleep
last: `_electSelf` sleeps and raises retry-after-sleep, and no elect request is
sent.  And member 0, tying with member 2 while member 3 does not answer and the
process has been up for 100 seconds, stops at the startup grace: it does not
sleep, and it sends no elect request either. -/
theorem lowest_id_sleeps :
    (∀ m ∈ (exampleCandidate 100 7).members, (exampleCandidate 100 7).self.id < m.id) ∧
    (Consensus.weAreFreshest natCmp (exampleCandidate 100 7)
        (exampleFreshNet exampleGrantReply) 100).result
      = .ok (true, { allUp := true, nTies := 2, highestKnownPrimary := 7 }) ∧
    (Consensus._electSelf natCmp { sleptLast := false, steppedDown := 0 }
        (exampleCandidate 100 7)
        (exampleEnv (exampleCandidate 100 7) exampleGrantReply 1)).result
      = .error Exn.retryAfterSleep ∧
    (Consensus._electSelf natCmp { sleptLast := false, steppedDown := 0 }
        (exampleCandidate 100 7)
        (exampleEnv (exampleCandidate 100 7) exampleGrantReply 1)).trace
      = [Event.multiCommandFresh ["b:27017", "c:27017"] (exampleFreshCmd 100),
         Event.sethbmsg "",
         Event.sleepmillis 395] ∧
    (Consensus.weAreFreshest natCmp exampleCandidateZero exampleDownNet 100).result
      = .ok (true, { allUp := false, nTies := 1, highestKnownPrimary := 7 }) ∧
    (Consensus._electSelf natCmp { sleptLast := false, steppedDown := 0 } exampleCandidateZero
        exampleGraceEnv).trace
      = [Event.multiCommandFresh ["b:27017", "c:27017"]
           { set := "rs0", GTID := 100, who := "a:27017", cfgver := 1, id := 0 },
         Event.sethbmsg "",
         Event.sethbmsg
           "not electing self, not all members up and we have been up less than 5 minutes"] := by
  refine ⟨by decide, by rfl, by rfl, by decide, by rfl, by decide⟩

/-- C20, amended.  When `weAreFreshest` returned true, the startup grace does
not apply and the id of the candidate is 0, `_electSelf` goes on to the
election phase whatever `nTies` is, in particular when `nTies > 0`: its result
is that of the election phase, `sleptLast` is false, its actions are the fresh
query, the heartbeat message and the actions of the election phase; it does
not sleep and does not raise retry-after-sleep. -/
theorem id_zero_proceeds {G : Type} (cmp : G → G → Int) (c : Consensus) (rs : ReplSet G)
    (env : ElectEnv G) (out : FreshOut)
    (hentry : ¬ env.timeAtEntry < c.steppedDown)
    (hfresh : (Consensus.weAreFreshest cmp rs env.freshNet env.liveAfterFresh).result
      = .ok (true, out))
    (hgrace : ¬ (out.allUp = false ∧ env.timeAtGrace - env.started < 60 * 5))
    (hid : rs.self.id = 0) :
    (Consensus._electSelf cmp c rs env).result
      = (Consensus.electPhase rs.self env out.highestKnownPrimary).result ∧
    (Consensus._electSelf cmp c rs env).sleptLast = false ∧
    (Consensus._electSelf cmp c rs env).trace
      = (Consensus.weAreFreshest cmp rs env.freshNet env.liveAfterFresh).trace
        ++ [Event.sethbmsg ""]
        ++ (Consensus.electPhase rs.self env out.highestKnownPrimary).trace ∧
    (∀ ms, Event.sleepmillis ms ∉ (Consensus._electSelf cmp c rs env).trace) ∧
    (Consensus._electSelf cmp c rs env).result ≠ .error Exn.retryAfterSleep := by
  have hg : (!out.allUp && decide (env.timeAtGrace - env.started < 60 * 5)) = false := by
    cases hu : out.allUp with
    | true => simp
    | false =>
      have : ¬ (env.timeAtGrace - env.started < 60 * 5) := fun h => hgrace ⟨hu, h⟩
      simp only [Bool.not_false, Bool.true_and, decide_eq_false_iff_not]
      exact this
  have hrun : Consensus._electSelf cmp c rs env
      = ⟨(Consensus.electPhase rs.self env out.highestKnownPrimary).result, false,
          (Consensus.weAreFreshest cmp rs env.freshNet env.liveAfterFresh).trace
            ++ [Event.sethbmsg ""]
            ++ (Consensus.electPhase rs.self env out.highestKnownPrimary).trace⟩ := by
    unfold Consensus._electSelf
    simp only [hentry, if_false, hfresh, hg, Bool.false_eq_true, hid, true_or, not_true_eq_false,
      and_false]
  rw [hrun]
  refine ⟨rfl, rfl, rfl, ?_, electPhase_ne_retry _ _ _⟩
  intro ms hmem
  simp only [List.mem_append, List.mem_singleton, reduceCtorEq, or_false] at hmem
  rcases hmem with hmem | hmem
  · obtain ⟨_, _, h2⟩ := weAreFreshest_trace cmp rs env.freshNet env.liveAfterFresh _ hmem
    cases h2
  · rcases electPhase_trace rs.self env out.highestKnownPrimary _ hmem with
      ⟨_, _, h2, _⟩ | ⟨_, h2⟩ | h2 | h2 <;> cases h2

/-- C20, amended, at an example: member 0 ties with members 2 and 3, sends the
elect request at once and assumes primary. -/
theorem id_zero_proceeds_witness :
    (Consensus._electSelf natCmp { sleptLast := false, steppedDown := 0 } exampleCandidateZero
        (exampleEnv exampleCandidateZero exampleGrantReply 1)).trace
      = [Event.multiCommandFresh ["b:27017", "c:27017"]
           { set := "rs0", GTID := 100, who := "a:27017", cfgver := 1, id := 0 },
         Event.sethbmsg "",
         Event.multiCommandElect ["b:27017", "c:27017"]
           { set := "rs0", who := "a:27017", whoid := 0, cfgver := 1, round := 9,
             primaryToUse := some 8, gtid := 100 },
         Event.acceptPossiblePrimary 8 100,
         Event.handleHighestKnownPrimaryOfMember 8,
         Event.assumePrimary 8] ∧
    (Consensus._electSelf natCmp { sleptLast := false, steppedDown := 0 } exampleCandidateZero
        (exampleEnv exampleCandidateZero exampleGrantReply 1)).result
      ≠ .error Exn.retryAfterSleep :=
  ⟨by decide,
   (id_zero_proceeds natCmp { sleptLast := false, steppedDown := 0 } exampleCandidateZero
      (exampleEnv exampleCandidateZero exampleGrantReply 1)
      { allUp := true, nTies := 2, highestKnownPrimary := 7 }
      (by decide) (by rfl) (by decide) rfl).2.2.2.2⟩

/-- What `_electSelf` does after a freshness phase that returned true: the
startup grace, the tie decision, the election phase. -/
theorem electSelf_eq_of_fresh {G : Type} (cmp : G → G → Int) (c : Consensus) (rs : ReplSet G)
    (env : ElectEnv G) (out : FreshOut)
    (hentry : ¬ env.timeAtEntry < c.steppedDown)
    (hfresh : (Consensus.weAreFreshest cmp rs env.freshNet env.liveAfterFresh).result
      = .ok (true, out)) :
    Consensus._electSelf cmp c rs env =
      if (!out.allUp && decide (env.timeAtGrace - env.started < 60 * 5)) = true then
        ⟨.ok (), c.sleptLast,
          (Consensus.weAreFreshest cmp rs env.freshNet env.liveAfterFresh).trace
            ++ [Event.sethbmsg ""]
            ++ [Event.sethbmsg
              "not electing self, not all members up and we have been up less than 5 minutes"]⟩
      else if out.nTies ≠ 0 ∧ ¬ (rs.self.id = 0 ∨ c.sleptLast = true) then
        if rs.lockedByMe = true then
          ⟨.error (Exn.assertion "!rs.lockedByMe()"), c.sleptLast,
            (Consensus.weAreFreshest cmp rs env.freshNet env.liveAfterFresh).trace
              ++ [Event.sethbmsg ""]⟩
        else
          ⟨.error Exn.retryAfterSleep, true,
            (Consensus.weAreFreshest cmp rs env.freshNet env.liveAfterFresh).trace
              ++ [Event.sethbmsg ""] ++ [Event.sleepmillis (Consensus.tieSleepMs env.rand)]⟩
      else
        ⟨(Consensus.electPhase rs.self env out.highestKnownPrimary).result, false,
          (Consensus.weAreFreshest cmp rs env.freshNet env.liveAfterFresh).trace
            ++ [Event.sethbmsg ""]
            ++ (Consensus.electPhase rs.self env out.highestKnownPrimary).trace⟩ := by
  unfold Consensus._electSelf
  simp only [hentry, if_false, hfresh]

/-- What `_electSelf` does when it returns at once or the freshness phase does
not return true: nothing but the fresh query, no retry-after-sleep, and
`sleptLast` stays. -/
theorem electSelf_of_not_fresh {G : Type} (cmp : G → G → Int) (c : Consensus) (rs : ReplSet G)
    (env : ElectEnv G)
    (h : env.timeAtEntry < c.steppedDown ∨
      ∀ out, (Consensus.weAreFreshest cmp rs env.freshNet env.liveAfterFresh).result
        ≠ .ok (true, out)) :
    (∀ e ∈ (Consensus._electSelf cmp c rs env).trace,
      ∃ hosts cmd, e = Event.multiCommandFresh hosts cmd) ∧
    (Consensus._electSelf cmp c rs env).result ≠ .error Exn.retryAfterSleep ∧
    (Consensus._electSelf cmp c rs env).sleptLast = c.sleptLast := by
  unfold Consensus._electSelf
  by_cases hs : env.timeAtEntry < c.steppedDown
  · simp [hs]
  · have hne : ∀ out, (Consensus.weAreFreshest cmp rs env.freshNet env.liveAfterFresh).result
        ≠ .ok (true, out) := by
      rcases h with h | h
      · exact absurd h hs
      · exact h
    simp only [hs, if_false]
    have htr := weAreFreshest_trace cmp rs env.freshNet env.liveAfterFresh
    cases hres : (Consensus.weAreFreshest cmp rs env.freshNet env.liveAfterFresh).result with
    | error e =>
      refine ⟨htr, ?_, rfl⟩
      unfold Consensus.weAreFreshest Consensus.multiCommand at hres
      by_cases hl : rs.lockedByMe = true
      · simp only [hl, if_true] at hres
        cases hres
        simp
      · simp only [hl, Bool.false_eq_true, if_false] at hres
        intro h2
        have he : e = Exn.retryAfterSleep := by simpa using h2
        subst he
        exact weAreFreshestLoop_ne_retry cmp _ _ _ _ hres
    | ok v =>
      obtain ⟨b, out⟩ := v
      cases b with
      | true => exact absurd hres (hne out)
      | false => exact ⟨htr, by simp, rfl⟩

/-- The tie sleep lies between 50 and 1049 milliseconds. -/
theorem tieSleepMs_bounds (rand : Nat) :
    50 ≤ Consensus.tieSleepMs rand ∧ Consensus.tieSleepMs rand < 1050 := by
  unfold Consensus.tieSleepMs UINT32_MOD
  omega

/-- An attempt of `_electSelf` that sleeps: it is past a freshness phase that
returned true, it ends in retry-after-sleep with `sleptLast` set, and its
actions are the fresh query, the heartbeat message and the sleep. -/
theorem electSelf_sleep {G : Type} (cmp : G → G → Int) (c : Consensus) (rs : ReplSet G)
    (env : ElectEnv G) (ms : Nat)
    (h : Event.sleepmillis ms ∈ (Consensus._electSelf cmp c rs env).trace) :
    ms = Consensus.tieSleepMs env.rand ∧
    (Consensus._electSelf cmp c rs env).result = .error Exn.retryAfterSleep ∧
    (Consensus._electSelf cmp c rs env).sleptLast = true ∧
    (Consensus._electSelf cmp c rs env).trace
      = (Consensus.weAreFreshest cmp rs env.freshNet env.liveAfterFresh).trace
        ++ [Event.sethbmsg ""] ++ [Event.sleepmillis (Consensus.tieSleepMs env.rand)] := by
  have htr := weAreFreshest_trace cmp rs env.freshNet env.liveAfterFresh
  by_cases hproceed : env.timeAtEntry < c.steppedDown ∨
      ∀ out, (Consensus.weAreFreshest cmp rs env.freshNet env.liveAfterFresh).result
        ≠ .ok (true, out)
  · obtain ⟨h1, _, _⟩ := electSelf_of_not_fresh cmp c rs env hproceed
    obtain ⟨_, _, h2⟩ := h1 _ h
    cases h2
  · simp only [not_or, not_forall, not_not] at hproceed
    obtain ⟨hentry, out, hfresh⟩ := hproceed
    rw [electSelf_eq_of_fresh cmp c rs env out hentry hfresh] at h ⊢
    by_cases hg : (!out.allUp && decide (env.timeAtGrace - env.started < 60 * 5)) = true
    · rw [if_pos hg] at h
      simp only [List.mem_append, List.mem_singleton, reduceCtorEq, or_false] at h
      obtain ⟨_, _, h2⟩ := htr _ h
      cases h2
    · rw [if_neg hg] at h ⊢
      by_cases ht : out.nTies ≠ 0 ∧ ¬ (rs.self.id = 0 ∨ c.sleptLast = true)
      · rw [if_pos ht] at h ⊢
        by_cases hl : rs.lockedByMe = true
        · rw [if_pos hl] at h
          simp only [List.mem_append, List.mem_singleton, reduceCtorEq, or_false] at h
          obtain ⟨_, _, h2⟩ := htr _ h
          cases h2
        · rw [if_neg hl] at h ⊢
          simp only [List.mem_append, List.mem_singleton, reduceCtorEq, or_false,
            Event.sleepmillis.injEq] at h
          rcases h with h | h
          · obtain ⟨_, _, h2⟩ := htr _ h
            cases h2
          · exact ⟨h, rfl, rfl, rfl⟩
      · rw [if_neg ht] at h
        simp only [List.mem_append, List.mem_singleton, reduceCtorEq, or_false] at h
        rcases h with h | h
        · obtain ⟨_, _, h2⟩ := htr _ h
          cases h2
        · rcases electPhase_trace rs.self env out.highestKnownPrimary _ h with
            ⟨_, _, h2, _⟩ | ⟨_, h2⟩ | h2 | h2 <;> cases h2

/-- C21. For every value of `rand()` the tie sleep `rand() % 1000 + 50` lies in
`[50, 1050)`; an attempt of `_electSelf` that sleeps does so for that duration,
ends by raising retry-after-sleep, and has sent no elect request and made no
call on the epoch store or the role: its actions are the fresh query, the
heartbeat message and the sleep. -/
theorem tie_sleep {G : Type} (cmp : G → G → Int) (c : Consensus) (rs : ReplSet G)
    (env : ElectEnv G) :
    (∀ rand : Nat, 50 ≤ Consensus.tieSleepMs rand ∧ Consensus.tieSleepMs rand < 1050) ∧
    (∀ ms, Event.sleepmillis ms ∈ (Consensus._electSelf cmp c rs env).trace →
      ms = Consensus.tieSleepMs env.rand ∧ 50 ≤ ms ∧ ms < 1050 ∧
      (Consensus._electSelf cmp c rs env).result = .error Exn.retryAfterSleep ∧
      (∀ e ∈ (Consensus._electSelf cmp c rs env).trace,
        (∃ hosts cmd, e = Event.multiCommandFresh hosts cmd) ∨ e = Event.sethbmsg "" ∨
        e = Event.sleepmillis ms) ∧
      (∀ hosts cmd, Event.multiCommandElect hosts cmd
        ∉ (Consensus._electSelf cmp c rs env).trace)) := by
  refine ⟨tieSleepMs_bounds, ?_⟩
  intro ms hms
  obtain ⟨h1, h2, _, h4⟩ := electSelf_sleep cmp c rs env ms hms
  have hb := tieSleepMs_bounds env.rand
  have htr := weAreFreshest_trace cmp rs env.freshNet env.liveAfterFresh
  have hev : ∀ e ∈ (Consensus._electSelf cmp c rs env).trace,
      (∃ hosts cmd, e = Event.multiCommandFresh hosts cmd) ∨ e = Event.sethbmsg "" ∨
      e = Event.sleepmillis ms := by
    intro e he
    rw [h4] at he
    simp only [List.mem_append, List.mem_singleton] at he
    rcases he with (he | he) | he
    · exact Or.inl (htr e he)
    · exact Or.inr (Or.inl he)
    · exact Or.inr (Or.inr (by rw [he, h1]))
  refine ⟨h1, by omega, by omega, h2, hev, ?_⟩
  intro hosts cmd hmem
  rcases hev _ hmem with ⟨_, _, h⟩ | h | h <;> cases h

/-- An attempt of `_electSelf` that raises retry-after-sleep started with
`sleptLast` false and leaves it true. -/
theorem electSelf_retry {G : Type} (cmp : G → G → Int) (c : Consensus) (rs : ReplSet G)
    (env : ElectEnv G)
    (h : (Consensus._electSelf cmp c rs env).result = .error Exn.retryAfterSleep) :
    c.sleptLast = false ∧ (Consensus._electSelf cmp c rs env).sleptLast = true := by
  by_cases hproceed : env.timeAtEntry < c.steppedDown ∨
      ∀ out, (Consensus.weAreFreshest cmp rs env.freshNet env.liveAfterFresh).result
        ≠ .ok (true, out)
  · exact absurd h (electSelf_of_not_fresh cmp c rs env hproceed).2.1
  · simp only [not_or, not_forall, not_not] at hproceed
    obtain ⟨hentry, out, hfresh⟩ := hproceed
    rw [electSelf_eq_of_fresh cmp c rs env out hentry hfresh] at h ⊢
    by_cases hg : (!out.allUp && decide (env.timeAtGrace - env.started < 60 * 5)) = true
    · rw [if_pos hg] at h
      simp at h
    · rw [if_neg hg] at h ⊢
      by_cases ht : out.nTies ≠ 0 ∧ ¬ (rs.self.id = 0 ∨ c.sleptLast = true)
      · rw [if_pos ht] at h ⊢
        by_cases hl : rs.lockedByMe = true
        · rw [if_pos hl] at h
          simp at h
        · rw [if_neg hl]
          refine ⟨?_, rfl⟩
          have := ht.2
          simp only [not_or, Bool.not_eq_true] at this
          exact this.2
      · rw [if_neg ht] at h
        exact absurd h (electPhase_ne_retry _ _ _)

/-- An attempt of `_electSelf` that is past the startup grace and does not have to
sleep goes through the election phase and clears `sleptLast`. -/
theorem electSelf_proceeds {G : Type} (cmp : G → G → Int) (c : Consensus) (rs : ReplSet G)
    (env : ElectEnv G) (out : FreshOut)
    (hentry : ¬ env.timeAtEntry < c.steppedDown)
    (hfresh : (Consensus.weAreFreshest cmp rs env.freshNet env.liveAfterFresh).result
      = .ok (true, out))
    (hgrace : ¬ (out.allUp = false ∧ env.timeAtGrace - env.started < 60 * 5))
    (hnosleep : out.nTies = 0 ∨ rs.self.id = 0 ∨ c.sleptLast = true) :
    Consensus._electSelf cmp c rs env
      = ⟨(Consensus.electPhase rs.self env out.highestKnownPrimary).result, false,
          (Consensus.weAreFreshest cmp rs env.freshNet env.liveAfterFresh).trace
            ++ [Event.sethbmsg ""]
            ++ (Consensus.electPhase rs.self env out.highestKnownPrimary).trace⟩ := by
  have hg : ¬ (!out.allUp && decide (env.timeAtGrace - env.started < 60 * 5)) = true := by
    intro h
    simp only [Bool.and_eq_true, Bool.not_eq_true', decide_eq_true_eq] at h
    exact hgrace h
  have ht : ¬ (out.nTies ≠ 0 ∧ ¬ (rs.self.id = 0 ∨ c.sleptLast = true)) := by
    rintro ⟨h1, h2⟩
    rcases hnosleep with h | h
    · exact h1 h
    · exact h2 h
  rw [electSelf_eq_of_fresh cmp c rs env out hentry hfresh, if_neg hg, if_neg ht]

/-- The actions of an attempt that goes through the election phase hold no
sleep. -/
theorem no_sleep_of_proceeds {G : Type} (cmp : G → G → Int) (rs : ReplSet G)
    (env : ElectEnv G) (hkp : Nat) (ms : Nat) :
    Event.sleepmillis ms ∉
      (Consensus.weAreFreshest cmp rs env.freshNet env.liveAfterFresh).trace
        ++ [Event.sethbmsg ""] ++ (Consensus.electPhase rs.self env hkp).trace := by
  intro hmem
  simp only [List.mem_append, List.mem_singleton, reduceCtorEq, or_false] at hmem
  rcases hmem with hmem | hmem
  · obtain ⟨_, _, h2⟩ := weAreFreshest_trace cmp rs env.freshNet env.liveAfterFresh _ hmem
    cases h2
  · rcases electPhase_trace rs.self env hkp _ hmem with
      ⟨_, _, h2, _⟩ | ⟨_, h2⟩ | h2 | h2 <;> cases h2

/-- In a sequence of attempts that starts with `sleptLast` set, no attempt
raises retry-after-sleep as long as every attempt before it left `sleptLast`
set. -/
theorem attempts_no_retry_while_slept {G : Type} (cmp : G → G → Int)
    (mid : List (Outcome G)) (inputs : List (Int × ReplSet G × ElectEnv G))
    (b : Outcome G) (l2 : List (Outcome G))
    (h : Consensus.attempts cmp true inputs = mid ++ b :: l2)
    (hmid : ∀ o ∈ mid, o.sleptLast = true) :
    b.result ≠ .error Exn.retryAfterSleep := by
  induction mid generalizing inputs with
  | nil =>
    cases inputs with
    | nil => simp [Consensus.attempts] at h
    | cons i rest =>
      obtain ⟨sd, rs, env⟩ := i
      simp only [Consensus.attempts, List.nil_append, List.cons.injEq] at h
      intro hb
      rw [← h.1] at hb
      have := (electSelf_retry cmp _ rs env hb).1
      simp at this
  | cons o mid ih =>
    cases inputs with
    | nil => simp [Consensus.attempts] at h
    | cons i rest =>
      obtain ⟨sd, rs, env⟩ := i
      simp only [Consensus.attempts, List.cons_append, List.cons.injEq] at h
      have ho : o.sleptLast = true := hmid o (List.mem_cons_self _ _)
      rw [h.1, ho] at h
      exact ih rest h.2 (fun x hx => hmid x (List.mem_cons_of_mem _ hx))

/-- A suffix of a sequence of attempts is a sequence of attempts. -/
theorem attempts_suffix {G : Type} (cmp : G → G → Int) (l1 l : List (Outcome G))
    (s : Bool) (inputs : List (Int × ReplSet G × ElectEnv G))
    (h : Consensus.attempts cmp s inputs = l1 ++ l) :
    ∃ s2 inputs2, Consensus.attempts cmp s2 inputs2 = l := by
  induction l1 generalizing s inputs with
  | nil => exact ⟨s, inputs, by simpa using h⟩
  | cons o l1 ih =>
    cases inputs with
    | nil => simp [Consensus.attempts] at h
    | cons i rest =>
      obtain ⟨sd, rs, env⟩ := i
      simp only [Consensus.attempts, List.cons_append, List.cons.injEq] at h
      exact ih _ rest h.2

/-- Between two attempts that raise retry-after-sleep lies an attempt that
cleared `sleptLast`. -/
theorem attempts_retry_retry {G : Type} (cmp : G → G → Int) (s : Bool)
    (inputs : List (Int × ReplSet G × ElectEnv G)) (l1 mid l2 : List (Outcome G))
    (a b : Outcome G)
    (h : Consensus.attempts cmp s inputs = l1 ++ a :: (mid ++ b :: l2))
    (ha : a.result = .error Exn.retryAfterSleep)
    (hb : b.result = .error Exn.retryAfterSleep) :
    ∃ o ∈ mid, o.sleptLast = false := by
  obtain ⟨s2, inputs2, h2⟩ := attempts_suffix cmp l1 _ s inputs h
  cases inputs2 with
  | nil => simp [Consensus.attempts] at h2
  | cons i rest =>
    obtain ⟨sd, rs, env⟩ := i
    simp only [Consensus.attempts, List.cons.injEq] at h2
    obtain ⟨h3, h4⟩ := h2
    rw [← h3] at ha
    have hs := (electSelf_retry cmp _ rs env ha).2
    rw [hs] at h4
    by_contra hc
    simp only [not_exists, not_and, Bool.not_eq_false] at hc
    exact attempts_no_retry_while_slept cmp mid rest b l2 h4 hc hb

/-- C22. An attempt of `_electSelf` that reaches the tie decision (the freshness
phase returned true, the startup grace does not apply) with `sleptLast` set
goes through the election phase without sleeping, whatever `nTies` is, and
leaves `sleptLast` false.  Hence, in any sequence of attempts on one node,
between two attempts that raise retry-after-sleep there is one that went
through the election phase and cleared `sleptLast`; in particular two
consecutive attempts never both raise it. -/
theorem slept_last_no_sleep {G : Type} (cmp : G → G → Int) (c : Consensus) (rs : ReplSet G)
    (env : ElectEnv G) (out : FreshOut)
    (hentry : ¬ env.timeAtEntry < c.steppedDown)
    (hfresh : (Consensus.weAreFreshest cmp rs env.freshNet env.liveAfterFresh).result
      = .ok (true, out))
    (hgrace : ¬ (out.allUp = false ∧ env.timeAtGrace - env.started < 60 * 5))
    (hslept : c.sleptLast = true) :
    ((Consensus._electSelf cmp c rs env).result
        = (Consensus.electPhase rs.self env out.highestKnownPrimary).result ∧
      (Consensus._electSelf cmp c rs env).sleptLast = false ∧
      (Consensus._electSelf cmp c rs env).trace
        = (Consensus.weAreFreshest cmp rs env.freshNet env.liveAfterFresh).trace
          ++ [Event.sethbmsg ""]
          ++ (Consensus.electPhase rs.self env out.highestKnownPrimary).trace ∧
      (∀ ms, Event.sleepmillis ms ∉ (Consensus._electSelf cmp c rs env).trace) ∧
      (Consensus._electSelf cmp c rs env).result ≠ .error Exn.retryAfterSleep) ∧
    (∀ (s : Bool) (inputs : List (Int × ReplSet G × ElectEnv G))
        (l1 mid l2 : List (Outcome G)) (a b : Outcome G),
      Consensus.attempts cmp s inputs = l1 ++ a :: (mid ++ b :: l2) →
      a.result = .error Exn.retryAfterSleep → b.result = .error Exn.retryAfterSleep →
      ∃ o ∈ mid, o.sleptLast = false) ∧
    (∀ (s : Bool) (inputs : List (Int × ReplSet G × ElectEnv G))
        (l1 l2 : List (Outcome G)) (a b : Outcome G),
      Consensus.attempts cmp s inputs = l1 ++ a :: b :: l2 →
      ¬ (a.result = .error Exn.retryAfterSleep ∧ b.result = .error Exn.retryAfterSleep)) := by
  refine ⟨?_, ?_, ?_⟩
  · rw [electSelf_proceeds cmp c rs env out hentry hfresh hgrace (Or.inr (Or.inr hslept))]
    exact ⟨rfl, rfl, rfl, fun ms => no_sleep_of_proceeds cmp rs env _ ms,
      electPhase_ne_retry _ _ _⟩
  · intro s inputs l1 mid l2 a b h ha hb
    exact attempts_retry_retry cmp s inputs l1 mid l2 a b h ha hb
  · intro s inputs l1 l2 a b h hab
    obtain ⟨o, ho, _⟩ := attempts_retry_retry cmp s inputs l1 [] l2 a b (by simpa using h)
      hab.1 hab.2
    simp at ho

/-- C22, at an example: member 1 ties with members 2 and 3 after having slept in
its last attempt; it sends the elect request and assumes primary, and
`sleptLast` is false afterwards. -/
theorem slept_last_no_sleep_witness :
    (Consensus._electSelf natCmp { sleptLast := true, steppedDown := 0 } (exampleCandidate 100 7)
        (exampleEnv (exampleCandidate 100 7) exampleGrantReply 1)).trace
      = [Event.multiCommandFresh ["b:27017", "c:27017"] (exampleFreshCmd 100),
         Event.sethbmsg "",
         Event.multiCommandElect ["b:27017", "c:27017"] (exampleElectCmd 8),
         Event.acceptPossiblePrimary 8 100,
         Event.handleHighestKnownPrimaryOfMember 8,
         Event.assumePrimary 8] ∧
    (Consensus._electSelf natCmp { sleptLast := true, steppedDown := 0 } (exampleCandidate 100 7)
        (exampleEnv (exampleCandidate 100 7) exampleGrantReply 1)).sleptLast = false :=
  ⟨by decide,
   (slept_last_no_sleep natCmp { sleptLast := true, steppedDown := 0 } (exampleCandidate 100 7)
      (exampleEnv (exampleCandidate 100 7) exampleGrantReply 1)
      { allUp := true, nTies := 2, highestKnownPrimary := 7 }
      (by decide) (by rfl) (by decide) rfl).1.2.1⟩

/-- C23. Under the preconditions of `electSelf` (set lock not held, not an
arbiter, slave delay 0), `electSelf` ends in an exception exactly when
`_electSelf` raised retry-after-sleep, and that is the exception; a failed
assertion inside `_electSelf` is swallowed and `electSelf` returns normally.
The actions and `sleptLast` are those of `_electSelf`. -/
theorem electSelf_exceptions {G : Type} (cmp : G → G → Int) (c : Consensus) (rs : ReplSet G)
    (env : ElectEnv G) (hlock : rs.lockedByMe = false)
    (harbiter : rs.self.config.arbiterOnly = false)
    (hdelay : rs.self.config.slaveDelay = 0) :
    ((Consensus.electSelf cmp c rs env).result = .error Exn.retryAfterSleep ↔
      (Consensus._electSelf cmp c rs env).result = .error Exn.retryAfterSleep) ∧
    (∀ e, (Consensus.electSelf cmp c rs env).result = .error e → e = Exn.retryAfterSleep) ∧
    (∀ what, (Consensus._electSelf cmp c rs env).result = .error (Exn.assertion what) →
      (Consensus.electSelf cmp c rs env).result = .ok ()) ∧
    ((Consensus._electSelf cmp c rs env).result = .ok () →
      (Consensus.electSelf cmp c rs env).result = .ok ()) ∧
    (Consensus.electSelf cmp c rs env).trace = (Consensus._electSelf cmp c rs env).trace ∧
    (Consensus.electSelf cmp c rs env).sleptLast
      = (Consensus._electSelf cmp c rs env).sleptLast := by
  unfold Consensus.electSelf
  simp only [hlock, harbiter, hdelay, Bool.false_eq_true, if_false, ne_eq, not_true_eq_false]
  cases hres : (Consensus._electSelf cmp c rs env).result with
  | ok u => simp [hres]
  | error e =>
    cases e with
    | retryAfterSleep => simp [hres]
    | assertion what => simp

/-- C23, at an example: member 1 at position 50 gets replies from position 100
that do not say `fresher`; the `verify` in the freshness phase fails inside
`_electSelf`, and `electSelf` returns normally. -/
theorem electSelf_exceptions_witness :
    (Consensus._electSelf natCmp { sleptLast := false, steppedDown := 0 } (exampleCandidate 50 7)
        (exampleEnv (exampleCandidate 50 7) exampleGrantReply 1)).result
      = .error (Exn.assertion "GTID::cmp(remoteGTID, ourGTID) <= 0") ∧
    (Consensus.electSelf natCmp { sleptLast := false, steppedDown := 0 } (exampleCandidate 50 7)
        (exampleEnv (exampleCandidate 50 7) exampleGrantReply 1)).result = .ok () :=
  ⟨by rfl,
   (electSelf_exceptions natCmp { sleptLast := false, steppedDown := 0 } (exampleCandidate 50 7)
      (exampleEnv (exampleCandidate 50 7) exampleGrantReply 1) rfl rfl rfl).2.2.1 _ (by rfl)⟩

/-- The hosts of the targets after the fan-out are the hosts it was given. -/
theorem multiCommand_map_toHost {R : Type} (net : String → Bool × R) (L : List String) :
    (multiCommand net L).map (fun t => t.toHost) = L := by
  unfold multiCommand
  induction L with
  | nil => rfl
  | cons h rest ih => simp only [List.map_cons, ih]

/-- Without the set lock held, the actions of `weAreFreshest` are the fresh query
to the targets of `getTargets`. -/
theorem weAreFreshest_trace_eq {G : Type} (cmp : G → G → Int) (rs : ReplSet G)
    (net : String → Bool × FreshResult G) (liveNow : G) (hlock : rs.lockedByMe = false) :
    (Consensus.weAreFreshest cmp rs net liveNow).trace
      = [Event.multiCommandFresh (ReplSetImpl.getTargets rs).1
          { set := rs.name, GTID := rs.getLiveState, who := rs.self.fullName,
            cfgver := rs.version, id := (rs.self.id : Int) }] := by
  unfold Consensus.weAreFreshest Consensus.multiCommand
  simp [hlock, multiCommand_map_toHost]

/-- The actions of `_electSelf` past the stepped-down test start with those of
the freshness phase. -/
theorem electSelf_trace_prefix {G : Type} (cmp : G → G → Int) (c : Consensus) (rs : ReplSet G)
    (env : ElectEnv G) (hentry : ¬ env.timeAtEntry < c.steppedDown) :
    ∃ rest, (Consensus._electSelf cmp c rs env).trace
      = (Consensus.weAreFreshest cmp rs env.freshNet env.liveAfterFresh).trace ++ rest := by
  cases hres : (Consensus.weAreFreshest cmp rs env.freshNet env.liveAfterFresh).result with
  | error e =>
    refine ⟨[], ?_⟩
    unfold Consensus._electSelf
    simp [hentry, hres]
  | ok v =>
    obtain ⟨b, out⟩ := v
    cases b with
    | false =>
      refine ⟨[], ?_⟩
      unfold Consensus._electSelf
      simp [hentry, hres]
    | true =>
      rw [electSelf_eq_of_fresh cmp c rs env out hentry hres]
      split
      · exact ⟨_, List.append_assoc _ _ _⟩
      · split
        · split
          · exact ⟨_, rfl⟩
          · exact ⟨_, List.append_assoc _ _ _⟩
        · exact ⟨_, List.append_assoc _ _ _⟩

/-- C24. If the clock is before `steppedDown`, `_electSelf` returns at once: no
action at all (no fresh query, no elect request, no sleep, no call on the
epoch store or the role), a normal return, and `sleptLast` as it was; the same
holds for `electSelf`.  If the clock equals or exceeds `steppedDown`, the
attempt enters the freshness phase: its actions start with those of
`weAreFreshest`, which, the set lock not being held, is the fresh query to the
targets. -/
theorem stepped_down_returns {G : Type} (cmp : G → G → Int) (c : Consensus) (rs : ReplSet G)
    (env : ElectEnv G) :
    (env.timeAtEntry < c.steppedDown →
      Consensus._electSelf cmp c rs env = ⟨.ok (), c.sleptLast, []⟩ ∧
      (Consensus.electSelf cmp c rs env).trace = [] ∧
      (Consensus.electSelf cmp c rs env).sleptLast = c.sleptLast) ∧
    (¬ env.timeAtEntry < c.steppedDown →
      ∃ rest, (Consensus._electSelf cmp c rs env).trace
        = (Consensus.weAreFreshest cmp rs env.freshNet env.liveAfterFresh).trace ++ rest) ∧
    (¬ env.timeAtEntry < c.steppedDown → rs.lockedByMe = false →
      ∃ cmd rest, (Consensus._electSelf cmp c rs env).trace
        = Event.multiCommandFresh (ReplSetImpl.getTargets rs).1 cmd :: rest) := by
  refine ⟨?_, ?_, ?_⟩
  · intro h
    have h1 : Consensus._electSelf cmp c rs env = ⟨.ok (), c.sleptLast, []⟩ := by
      unfold Consensus._electSelf
      simp [h]
    refine ⟨h1, ?_, ?_⟩
    · unfold Consensus.electSelf
      rw [h1]
      split
      · rfl
      · split
        · rfl
        · split <;> rfl
    · unfold Consensus.electSelf
      rw [h1]
      split
      · rfl
      · split
        · rfl
        · split <;> rfl
  · exact electSelf_trace_prefix cmp c rs env
  · intro h hlock
    obtain ⟨rest, hrest⟩ := electSelf_trace_prefix cmp c rs env h
    rw [weAreFreshest_trace_eq cmp rs _ _ hlock] at hrest
    exact ⟨_, rest, by simpa using hrest⟩

/-- The actions of `weAreFreshest` are fresh queries to the targets of
`getTargets`. -/
theorem weAreFreshest_trace_hosts {G : Type} (cmp : G → G → Int) (rs : ReplSet G)
    (net : String → Bool × FreshResult G) (liveNow : G) :
    ∀ e ∈ (Consensus.weAreFreshest cmp rs net liveNow).trace,
      ∃ cmd, e = Event.multiCommandFresh (ReplSetImpl.getTargets rs).1 cmd := by
  unfold Consensus.weAreFreshest Consensus.multiCommand
  by_cases hl : rs.lockedByMe = true
  · simp [hl]
  · simp [hl, multiCommand_map_toHost]

/-- The elect request of the election phase goes to the targets of `getTargets`
on the replica set as the election phase finds it, and carries its config
version. -/
theorem electPhase_elect_event {G : Type} (me : Member G) (env : ElectEnv G)
    (highestKnownPrimary : Nat) (hosts : List String) (cmd : ElectCmd G)
    (h : Event.multiCommandElect hosts cmd
      ∈ (Consensus.electPhase me env highestKnownPrimary).trace) :
    hosts = (ReplSetImpl.getTargets env.rsElect).1 ∧ cmd.cfgver = env.rsElect.version := by
  unfold Consensus.electPhase Consensus.multiCommand at h
  by_cases hl : env.rsElect.lockedByMe = true
  · simp [hl] at h
  · simp only [hl, Bool.false_eq_true, if_false, List.mem_cons, Event.multiCommandElect.injEq,
      multiCommand_map_toHost] at h
    rcases h with ⟨h1, h2⟩ | h
    · exact ⟨h1, by rw [h2]⟩
    · exfalso
      unfold Consensus.electDecision at h
      split at h
      · simp at h
      · split at h
        · simp at h
        · split at h
          · simp at h
          · split at h <;> simp at h

/-- The shape of the actions of `_electSelf`: those of the freshness phase,
followed by heartbeat messages, a sleep, or the actions of the election phase
run with the highest known primary that `weAreFreshest` returned. -/
theorem electSelf_trace_shape {G : Type} (cmp : G → G → Int) (c : Consensus) (rs : ReplSet G)
    (env : ElectEnv G) :
    ∀ e ∈ (Consensus._electSelf cmp c rs env).trace,
      e ∈ (Consensus.weAreFreshest cmp rs env.freshNet env.liveAfterFresh).trace ∨
      (∃ msg, e = Event.sethbmsg msg) ∨
      (∃ ms, e = Event.sleepmillis ms) ∨
      ∃ out, (Consensus.weAreFreshest cmp rs env.freshNet env.liveAfterFresh).result
          = .ok (true, out) ∧
        e ∈ (Consensus.electPhase rs.self env out.highestKnownPrimary).trace := by
  intro e he
  by_cases hs : env.timeAtEntry < c.steppedDown
  · unfold Consensus._electSelf at he
    simp [hs] at he
  · cases hres : (Consensus.weAreFreshest cmp rs env.freshNet env.liveAfterFresh).result with
    | error err =>
      unfold Consensus._electSelf at he
      simp only [hs, if_false, hres] at he
      exact Or.inl he
    | ok v =>
      obtain ⟨b, out⟩ := v
      cases b with
      | false =>
        unfold Consensus._electSelf at he
        simp only [hs, if_false, hres] at he
        exact Or.inl he
      | true =>
        rw [electSelf_eq_of_fresh cmp c rs env out hs hres] at he
        split at he
        · simp only [List.mem_append, List.mem_singleton] at he
          rcases he with (he | he) | he
          · exact Or.inl he
          · exact Or.inr (Or.inl ⟨_, he⟩)
          · exact Or.inr (Or.inl ⟨_, he⟩)
        · split at he
          · split at he
            · simp only [List.mem_append, List.mem_singleton] at he
              rcases he with he | he
              · exact Or.inl he
              · exact Or.inr (Or.inl ⟨_, he⟩)
            · simp only [List.mem_append, List.mem_singleton] at he
              rcases he with (he | he) | he
              · exact Or.inl he
              · exact Or.inr (Or.inl ⟨_, he⟩)
              · exact Or.inr (Or.inr (Or.inl ⟨_, he⟩))
          · simp only [List.mem_append, List.mem_singleton] at he
            rcases he with (he | he) | he
            · exact Or.inl he
            · exact Or.inr (Or.inl ⟨_, he⟩)
            · exact Or.inr (Or.inr (Or.inr ⟨out, rfl, he⟩))

/-- C25. The targets built by `getTargets` are the members of the list (the
other members) whose heartbeat state is maybe-up, in list order, by host name;
replacing the configuration (votes, priority, arbiter flag, slave delay) of the
members does not change them; the config version returned is the current one.
In `_electSelf` the fresh query goes to the targets of the replica set as the
freshness phase finds it and the elect request to those of the replica set as
the election phase finds it, so with an unchanged member list both go to the
same targets. -/
theorem getTargets_spec {G : Type} (rs : ReplSet G) :
    (ReplSetImpl.getTargets rs).1
      = (rs.members.filter (fun m => m.hbinfo.maybeUp)).map (fun m => m.fullName) ∧
    (ReplSetImpl.getTargets rs).2 = rs.version ∧
    (∀ f : Member G → MemberCfg,
      (ReplSetImpl.getTargets
          { rs with members := rs.members.map (fun m => { m with config := f m }) }).1
        = (ReplSetImpl.getTargets rs).1) ∧
    (∀ (cmp : G → G → Int) (c : Consensus) (env : ElectEnv G) (hosts hosts2 : List String)
        (cmd : FreshCmd G) (cmd2 : ElectCmd G),
      Event.multiCommandFresh hosts cmd ∈ (Consensus._electSelf cmp c rs env).trace →
      Event.multiCommandElect hosts2 cmd2 ∈ (Consensus._electSelf cmp c rs env).trace →
      hosts = (ReplSetImpl.getTargets rs).1 ∧
      hosts2 = (ReplSetImpl.getTargets env.rsElect).1 ∧
      (env.rsElect.members = rs.members → hosts2 = hosts)) := by
  refine ⟨getTargets_fst rs, ?_, ?_, ?_⟩
  · unfold ReplSetImpl.getTargets ReplSetImpl._getTargets
    split <;> rfl
  · intro f
    rw [getTargets_fst, getTargets_fst]
    simp only [List.filter_map, List.map_map]
    rfl
  · intro cmp c env hosts hosts2 cmd cmd2 h1 h2
    have hfresh : hosts = (ReplSetImpl.getTargets rs).1 := by
      rcases electSelf_trace_shape cmp c rs env _ h1 with h | ⟨_, h⟩ | ⟨_, h⟩ | ⟨out, _, h⟩
      · obtain ⟨cmd3, h3⟩ := weAreFreshest_trace_hosts cmp rs _ _ _ h
        simp only [Event.multiCommandFresh.injEq] at h3
        exact h3.1
      · cases h
      · cases h
      · rcases electPhase_trace rs.self env out.highestKnownPrimary _ h with
          ⟨_, _, h3, _⟩ | ⟨_, h3⟩ | h3 | h3 <;> cases h3
    have helect : hosts2 = (ReplSetImpl.getTargets env.rsElect).1 := by
      rcases electSelf_trace_shape cmp c rs env _ h2 with h | ⟨_, h⟩ | ⟨_, h⟩ | ⟨out, _, h⟩
      · obtain ⟨cmd3, h3⟩ := weAreFreshest_trace_hosts cmp rs _ _ _ h
        cases h3
      · cases h
      · cases h
      · exact (electPhase_elect_event rs.self env _ hosts2 cmd2 h).1
    refine ⟨hfresh, helect, ?_⟩
    intro hsame
    rw [hfresh, helect, getTargets_fst, getTargets_fst, hsame]

/-- C27. Startup grace.  After a freshness phase that returned true: if `allUp`
is false and the process has been up for less than 300 seconds, `_electSelf`
returns normally with `sleptLast` as it was, and its actions are the fresh
query and two heartbeat messages (no sleep, no elect request, no call on the
epoch store or the role).  Otherwise (`allUp` true, or up for 300 seconds or
more) the attempt goes on to the tie decision: it sleeps and raises
retry-after-sleep when `nTies` is not 0, its id is not 0 and it did not sleep
last, and goes through the election phase in every other case. -/
theorem startup_grace {G : Type} (cmp : G → G → Int) (c : Consensus) (rs : ReplSet G)
    (env : ElectEnv G) (out : FreshOut)
    (hentry : ¬ env.timeAtEntry < c.steppedDown)
    (hfresh : (Consensus.weAreFreshest cmp rs env.freshNet env.liveAfterFresh).result
      = .ok (true, out)) :
    (out.allUp = false ∧ env.timeAtGrace - env.started < 300 →
      Consensus._electSelf cmp c rs env
        = ⟨.ok (), c.sleptLast,
            (Consensus.weAreFreshest cmp rs env.freshNet env.liveAfterFresh).trace
              ++ [Event.sethbmsg ""]
              ++ [Event.sethbmsg
                "not electing self, not all members up and we have been up less than 5 minutes"]⟩
      ∧ (∀ ms, Event.sleepmillis ms ∉ (Consensus._electSelf cmp c rs env).trace)
      ∧ (∀ e ∈ (Consensus._electSelf cmp c rs env).trace,
          (∃ hosts cmd, e = Event.multiCommandFresh hosts cmd)
            ∨ ∃ msg, e = Event.sethbmsg msg)) ∧
    (¬ (out.allUp = false ∧ env.timeAtGrace - env.started < 300) →
      (out.nTies ≠ 0 ∧ rs.self.id ≠ 0 ∧ c.sleptLast = false → rs.lockedByMe = false →
        Consensus._electSelf cmp c rs env
          = ⟨.error Exn.retryAfterSleep, true,
              (Consensus.weAreFreshest cmp rs env.freshNet env.liveAfterFresh).trace
                ++ [Event.sethbmsg ""]
                ++ [Event.sleepmillis (Consensus.tieSleepMs env.rand)]⟩) ∧
      (out.nTies = 0 ∨ rs.self.id = 0 ∨ c.sleptLast = true →
        Consensus._electSelf cmp c rs env
          = ⟨(Consensus.electPhase rs.self env out.highestKnownPrimary).result, false,
              (Consensus.weAreFreshest cmp rs env.freshNet env.liveAfterFresh).trace
                ++ [Event.sethbmsg ""]
                ++ (Consensus.electPhase rs.self env out.highestKnownPrimary).trace⟩)) := by
  have htr := weAreFreshest_trace cmp rs env.freshNet env.liveAfterFresh
  refine ⟨?_, ?_⟩
  · rintro ⟨hup, htime⟩
    have hg : (!out.allUp && decide (env.timeAtGrace - env.started < 60 * 5)) = true := by
      simp only [hup, Bool.not_false, Bool.true_and, decide_eq_true_eq]
      omega
    have hrun := electSelf_eq_of_fresh cmp c rs env out hentry hfresh
    rw [if_pos hg] at hrun
    rw [hrun]
    refine ⟨rfl, ?_, ?_⟩
    · intro ms hmem
      simp only [List.mem_append, List.mem_singleton, reduceCtorEq, or_false] at hmem
      obtain ⟨_, _, h2⟩ := htr _ hmem
      cases h2
    · intro e he
      simp only [List.mem_append, List.mem_singleton] at he
      rcases he with (he | he) | he
      · exact Or.inl (htr e he)
      · exact Or.inr ⟨_, he⟩
      · exact Or.inr ⟨_, he⟩
  · intro hno
    have hgrace : ¬ (out.allUp = false ∧ env.timeAtGrace - env.started < 60 * 5) := by
      rintro ⟨h1, h2⟩
      exact hno ⟨h1, by omega⟩
    refine ⟨?_, ?_⟩
    · rintro ⟨h1, h2, h3⟩ hlock
      have hg : ¬ (!out.allUp && decide (env.timeAtGrace - env.started < 60 * 5)) = true := by
        intro h
        simp only [Bool.and_eq_true, Bool.not_eq_true', decide_eq_true_eq] at h
        exact hgrace h
      have ht : out.nTies ≠ 0 ∧ ¬ (rs.self.id = 0 ∨ c.sleptLast = true) := by
        refine ⟨h1, ?_⟩
        rintro (h | h)
        · exact h2 h
        · rw [h3] at h
          exact absurd h (by simp)
      have hl : ¬ rs.lockedByMe = true := by simp [hlock]
      rw [electSelf_eq_of_fresh cmp c rs env out hentry hfresh, if_neg hg, if_pos ht, if_neg hl]
    · intro hnosleep
      exact electSelf_proceeds cmp c rs env out hentry hfresh hgrace hnosleep

/-- C27, at an example: member 0 hears only member 2 while member 3 does not
answer, 100 seconds after the process started. -/
theorem startup_grace_witness :
    (Consensus._electSelf natCmp { sleptLast := false, steppedDown := 0 } exampleCandidateZero
        exampleGraceEnv).trace
      = [Event.multiCommandFresh ["b:27017", "c:27017"]
           { set := "rs0", GTID := 100, who := "a:27017", cfgver := 1, id := 0 },
         Event.sethbmsg "",
         Event.sethbmsg
           "not electing self, not all members up and we have been up less than 5 minutes"] ∧
    (∀ ms, Event.sleepmillis ms ∉
      (Consensus._electSelf natCmp { sleptLast := false, steppedDown := 0 } exampleCandidateZero
        exampleGraceEnv).trace) :=
  ⟨by decide,
   ((startup_grace natCmp { sleptLast := false, steppedDown := 0 } exampleCandidateZero
      exampleGraceEnv { allUp := false, nTies := 1, highestKnownPrimary := 7 }
      (by decide) (by rfl)).1 ⟨rfl, by decide⟩).2.1⟩

/-- The votes of the up members, summed with a test inside or after a filter. -/
theorem votes_up_sum_eq {G : Type} (ms : List (Member G)) :
    (ms.map (fun m => if m.hbinfo.up then (m.config.votes : Int) else 0)).sum
      = ((ms.filter (fun m => m.hbinfo.up)).map (fun m => (m.config.votes : Int))).sum := by
  induction ms with
  | nil => simp
  | cons m rest ih =>
    cases hup : m.hbinfo.up <;> simp [hup, ih]

/-- The count of `aMajoritySeemsToBeUp` in closed form. -/
theorem aMajority_fold_eq {G : Type} (ms : List (Member G)) (x : Int) :
    ms.foldl (fun vUp m => toInt (vUp + (if m.hbinfo.up then (m.config.votes : Int) else 0)))
        (toInt x)
      = toInt (x
        + ((ms.filter (fun m => m.hbinfo.up)).map (fun m => (m.config.votes : Int))).sum) := by
  rw [foldl_toInt (fun m : Member G => if m.hbinfo.up then (m.config.votes : Int) else 0),
    votes_up_sum_eq]

/-- C28. The two majority checks agree: `aMajoritySeemsToBeUp()` compares the
votes of self plus those of the up peers, as the `int` the code holds them in,
doubled, with `totalVotes()`; `shouldRelinquish()` ends with the negation of
that same comparison unless it returns true from inside its loop.  So when
`aMajoritySeemsToBeUp()` is false `shouldRelinquish()` is true, and when
`shouldRelinquish()` is false `aMajoritySeemsToBeUp()` is true. -/
theorem majority_checks_agree {G : Type} (cmp : G → G → Int) (rs : ReplSet G) :
    Consensus.aMajoritySeemsToBeUp rs
      = decide (toInt ((rs.self.config.votes : Int)
          + ((rs.members.filter (fun m => m.hbinfo.up)).map
              (fun m => (m.config.votes : Int))).sum) * 2 > Consensus.totalVotes rs) ∧
    (Consensus.shouldRelinquish cmp rs = true ↔
      Consensus.shouldRelinquishLoop cmp rs.getLiveState rs.getHighestKnownPrimary rs.members
          (toInt (rs.self.config.votes : Int)) = none ∨
      Consensus.aMajoritySeemsToBeUp rs = false) ∧
    (Consensus.aMajoritySeemsToBeUp rs = false → Consensus.shouldRelinquish cmp rs = true) ∧
    (Consensus.shouldRelinquish cmp rs = false → Consensus.aMajoritySeemsToBeUp rs = true) := by
  have h1 : Consensus.aMajoritySeemsToBeUp rs
      = decide (toInt ((rs.self.config.votes : Int)
          + ((rs.members.filter (fun m => m.hbinfo.up)).map
              (fun m => (m.config.votes : Int))).sum) * 2 > Consensus.totalVotes rs) := by
    unfold Consensus.aMajoritySeemsToBeUp
    simp only [aMajority_fold_eq]
  have h3 : Consensus.shouldRelinquish cmp rs = true ↔
      Consensus.shouldRelinquishLoop cmp rs.getLiveState rs.getHighestKnownPrimary rs.members
          (toInt (rs.self.config.votes : Int)) = none ∨
      Consensus.aMajoritySeemsToBeUp rs = false := by
    rw [h1]
    unfold Consensus.shouldRelinquish
    simp only [shouldRelinquishLoop_eq]
    by_cases hany : (rs.members.any fun m => m.hbinfo.up &&
        (decide (cmp rs.getLiveState m.hbinfo.gtid < 0)
          || decide (rs.getHighestKnownPrimary < m.hbinfo.highestKnownPrimaryInSet))) = true
    · simp only [hany, if_true, true_or]
    · simp only [hany, Bool.false_eq_true, if_false, reduceCtorEq, false_or]
      by_cases hgt : toInt ((rs.self.config.votes : Int)
          + ((rs.members.filter (fun m => m.hbinfo.up)).map
              (fun m => (m.config.votes : Int))).sum) * 2 > Consensus.totalVotes rs
      · simp [hgt]
      · simp [hgt]
  have h2 : Consensus.aMajoritySeemsToBeUp rs = false →
      Consensus.shouldRelinquish cmp rs = true := fun hf => h3.mpr (Or.inr hf)
  refine ⟨h1, h3, h2, ?_⟩
  intro hs
  by_contra hc
  simp only [Bool.not_eq_true] at hc
  rw [h2 hc] at hs
  simp at hs

/-- The decision after the tally calls the epoch store exactly when the majority
check, the 30-second check and the config-version check pass, and does nothing
at all when one of them fails. -/
theorem electDecision_checks {G : Type} (rs : ReplSet G) (tally start now : Int)
    (configVersion versionNow : Int) (primaryToUse : Nat) :
    ((tally * 2 ≤ Consensus.totalVotes rs ∨ now - start > 30 ∨ configVersion ≠ versionNow) →
      Consensus.electDecision rs tally start now configVersion versionNow primaryToUse = []) ∧
    (¬ (tally * 2 ≤ Consensus.totalVotes rs ∨ now - start > 30 ∨ configVersion ≠ versionNow) →
      ∃ rest, Consensus.electDecision rs tally start now configVersion versionNow primaryToUse
        = Event.acceptPossiblePrimary primaryToUse rs.getLiveState :: rest) := by
  unfold Consensus.electDecision
  by_cases h1 : tally * 2 ≤ Consensus.totalVotes rs
  · simp [h1]
  · by_cases h2 : now - start > 30
    · simp [h1, h2]
    · by_cases h3 : configVersion = versionNow
      · simp only [h1, h2, h3, if_false, ne_eq, not_true_eq_false, or_self, false_implies,
          not_false_eq_true, true_implies, true_and]
        split
        · exact ⟨_, rfl⟩
        · exact ⟨_, rfl⟩
      · simp [h1, h2, h3]

/-- An action of the election phase other than the elect request is made only
after the three checks passed. -/
theorem electPhase_epoch_event {G : Type} (me : Member G) (env : ElectEnv G)
    (highestKnownPrimary : Nat) (e : Event G)
    (he : e ∈ (Consensus.electPhase me env highestKnownPrimary).trace)
    (hne : ∀ hosts cmd, e ≠ Event.multiCommandElect hosts cmd) :
    Consensus.tallyVotes (toInt (Consensus.yea env.rsElect me.id : Int))
        (multiCommand env.electNet (ReplSetImpl.getTargets env.rsElect).1) * 2
      > Consensus.totalVotes env.rsElect ∧
    env.timeAfterTally - env.timeAtStart ≤ 30 ∧
    (ReplSetImpl.getTargets env.rsElect).2 = env.versionAfterTally := by
  unfold Consensus.electPhase Consensus.multiCommand at he
  by_cases hl : env.rsElect.lockedByMe = true
  · simp [hl] at he
  · simp only [hl, Bool.false_eq_true, if_false, List.mem_cons] at he
    rcases he with he | he
    · exact absurd he (hne _ _)
    · by_contra hc
      have hfail : Consensus.tallyVotes (toInt (Consensus.yea env.rsElect me.id : Int))
            (multiCommand env.electNet (ReplSetImpl.getTargets env.rsElect).1) * 2
          ≤ Consensus.totalVotes env.rsElect ∨
          env.timeAfterTally - env.timeAtStart > 30 ∨
          (ReplSetImpl.getTargets env.rsElect).2 ≠ env.versionAfterTally := by
        by_contra hc2
        simp only [not_or, not_le, not_lt, ne_eq, not_not] at hc2
        exact hc ⟨hc2.1, by omega, hc2.2.2⟩
      rw [(electDecision_checks env.rsElect _ _ _ _ _ _).1 hfail] at he
      simp at he

/-- C29. A failed tally leaves the epoch of the candidate untouched.  The decision
of `_electSelf` after the tally does nothing at all when the majority check,
the 30-second check or the config-version check fails, and starts with the
candidate's own `acceptPossiblePrimary` when all three pass; in a whole
`_electSelf`, every call of `acceptPossiblePrimary`,
`handleHighestKnownPrimaryOfMember` or `assumePrimary` comes after the three
checks passed. -/
theorem failed_tally_no_epoch_change {G : Type} (cmp : G → G → Int) (c : Consensus)
    (rs : ReplSet G) (env : ElectEnv G) :
    (∀ (tally start now configVersion versionNow : Int) (primaryToUse : Nat),
      ((tally * 2 ≤ Consensus.totalVotes env.rsElect ∨ now - start > 30 ∨
          configVersion ≠ versionNow) →
        Consensus.electDecision env.rsElect tally start now configVersion versionNow
          primaryToUse = []) ∧
      (¬ (tally * 2 ≤ Consensus.totalVotes env.rsElect ∨ now - start > 30 ∨
          configVersion ≠ versionNow) →
        ∃ rest, Consensus.electDecision env.rsElect tally start now configVersion versionNow
            primaryToUse
          = Event.acceptPossiblePrimary primaryToUse env.rsElect.getLiveState :: rest)) ∧
    (∀ e ∈ (Consensus._electSelf cmp c rs env).trace,
      ((∃ q g, e = Event.acceptPossiblePrimary q g) ∨
        (∃ q, e = Event.handleHighestKnownPrimaryOfMember q) ∨
        (∃ q, e = Event.assumePrimary q)) →
      Consensus.tallyVotes (toInt (Consensus.yea env.rsElect rs.self.id : Int))
          (multiCommand env.electNet (ReplSetImpl.getTargets env.rsElect).1) * 2
        > Consensus.totalVotes env.rsElect ∧
      env.timeAfterTally - env.timeAtStart ≤ 30 ∧
      (ReplSetImpl.getTargets env.rsElect).2 = env.versionAfterTally) := by
  refine ⟨fun tally start now cv vn p => electDecision_checks env.rsElect tally start now cv vn p,
    ?_⟩
  intro e he hkind
  rcases electSelf_trace_shape cmp c rs env e he with h | ⟨_, h⟩ | ⟨_, h⟩ | ⟨out, _, h⟩
  · obtain ⟨_, _, h2⟩ := weAreFreshest_trace cmp rs _ _ _ h
    subst h2
    rcases hkind with ⟨_, _, h3⟩ | ⟨_, h3⟩ | ⟨_, h3⟩ <;> cases h3
  · subst h
    rcases hkind with ⟨_, _, h3⟩ | ⟨_, h3⟩ | ⟨_, h3⟩ <;> cases h3
  · subst h
    rcases hkind with ⟨_, _, h3⟩ | ⟨_, h3⟩ | ⟨_, h3⟩ <;> cases h3
  · refine electPhase_epoch_event rs.self env _ e h ?_
    intro hosts cmd heq
    subst heq
    rcases hkind with ⟨_, _, h3⟩ | ⟨_, h3⟩ | ⟨_, h3⟩ <;> cases h3

/-- C30. The responders never dereference a missing member.  `shouldVeto` returns
true for every id that `findById` does not find; `electCmdReceived` always
produces a reply, and the branch that evaluates `hopeful->fullName()` is
reached only with a member found; `CmdReplSetFresh::run` never evaluates
`findById(id)->fullName()` on a missing member. -/
theorem no_null_dereference {G : Type} (cmp : G → G → Int) (rs : ReplSet G) :
    (∀ (id : Nat) (cfgver : Int) (errmsg : String),
      rs.findById id = none → (shouldVeto rs id cfgver errmsg).1 = true) ∧
    (∀ (voteYesUninit : Bool) (cmd : ElectCmd G),
      (Consensus.electCmdReceived rs voteYesUninit cmd).reply ≠ none) ∧
    (∀ (cmd : ElectCmd G), cmd.set = rs.name → ¬ rs.version < cmd.cfgver →
      (shouldVeto rs (toUnsigned cmd.whoid) cmd.cfgver "").1 = false →
      ∃ hopeful, rs.findById (toUnsigned cmd.whoid) = some hopeful) ∧
    (∀ (check : Option String) (cmdObj : FreshCmd G) (errmsg : String),
      CmdReplSetFresh.run cmp rs check cmdObj errmsg ≠ .nullDereference) := by
  refine ⟨?_, ?_, ?_, ?_⟩
  · intro id cfgver errmsg hf
    unfold shouldVeto
    simp [hf]
  · intro u cmd
    unfold Consensus.electCmdReceived
    by_cases hset : cmd.set = rs.name
    · by_cases hver : rs.version < cmd.cfgver
      · simp [hset, hver]
      · cases hsv : (shouldVeto rs (toUnsigned cmd.whoid) cmd.cfgver "").1 with
        | true => simp [hset, hver, hsv]
        | false =>
          obtain ⟨hopeful, hf⟩ := shouldVeto_false_findById rs _ _ _ hsv
          simp only [hset, ne_eq, not_true_eq_false, if_false, hver, hsv, Bool.false_eq_true, hf]
          split <;> simp
    · simp [hset]
  · intro cmd _ _ hsv
    exact shouldVeto_false_findById rs _ _ _ hsv
  · intro check cmdObj errmsg
    cases check with
    | some e => simp [CmdReplSetFresh.run]
    | none =>
      by_cases hset : cmdObj.set = rs.name
      · rw [fresh_run_eq cmp rs cmdObj errmsg hset]
        simp
      · simp [CmdReplSetFresh.run, hset]

/-- The reply of `electCmdReceived` does not depend on what the epoch store of the
responder answers. -/
theorem electCmdReceived_reply_of_accept {G : Type} (rs : ReplSet G) (accept : Nat → G → Bool)
    (voteYesUninit : Bool) (cmd : ElectCmd G) :
    (Consensus.electCmdReceived { rs with acceptPossiblePrimary := accept }
        voteYesUninit cmd).reply
      = (Consensus.electCmdReceived rs voteYesUninit cmd).reply := rfl

/-- C26 fails on the code.  Members 1 and 2 cannot reach each other, both pass the
freshness phase with member 3 reporting epoch 6, and both propose epoch 7.
Member 3 handles the elect request of member 1 first: its epoch store accepts 7
and it votes.  It then handles the request of member 2: its epoch store, now at
7, rejects the proposal, but `electCmdReceived` drops that answer and, with the
unassigned `voteYes` reading as true, votes again, whatever the store answers.
Each candidate counts 2 of 3 votes, its own epoch store accepts 7, and both
invoke `assumePrimary(7)`. -/
theorem two_primaries_one_epoch :
    (raceResponder 6).acceptPossiblePrimary 7 101 = true ∧
    (Consensus.electCmdReceived (raceResponder 6) true raceElectCmdA).reply
      = some { vote := 1, round := 9 } ∧
    (raceResponder 7).acceptPossiblePrimary 7 101 = false ∧
    (∀ accept : Nat → Nat → Bool,
      (Consensus.electCmdReceived { raceResponder 7 with acceptPossiblePrimary := accept }
          true raceElectCmdB).reply
        = some { vote := 1, round := 10 }) ∧
    (Consensus._electSelf natCmp { sleptLast := false, steppedDown := 0 }
        raceCandidateA raceEnvA).trace
      = [Event.multiCommandFresh ["c:27017"] (exampleFreshCmd 101),
         Event.sethbmsg "",
         Event.multiCommandElect ["c:27017"] raceElectCmdA,
         Event.acceptPossiblePrimary 7 101,
         Event.handleHighestKnownPrimaryOfMember 7,
         Event.assumePrimary 7] ∧
    (Consensus._electSelf natCmp { sleptLast := false, steppedDown := 0 }
        raceCandidateB raceEnvB).trace
      = [Event.multiCommandFresh ["c:27017"]
           { exampleFreshCmd 101 with who := "b:27017", id := 2 },
         Event.sethbmsg "",
         Event.multiCommandElect ["c:27017"] raceElectCmdB,
         Event.acceptPossiblePrimary 7 101,
         Event.handleHighestKnownPrimaryOfMember 7,
         Event.assumePrimary 7] := by
  refine ⟨by decide, by decide, by decide, ?_, by decide, by decide⟩
  intro accept
  rw [electCmdReceived_reply_of_accept]
  decide

end mongo
